import Mathlib

/-!
# Face-matching workflow (`main.go`): shallow embedding and verified properties

The Go program sequences calls to an object store and to a face-recognition
service.  The embedding keeps the control flow of each Go function and makes
the two things the Go code leaves implicit explicit:

* the external services are an `S3Client` and a `RekognitionClient`: for each
  operation a function from the history of calls made so far and the request
  to the response, so a response may depend on everything that happened
  before;
* the process state is a `World`: the history of external calls (with their
  responses), the lines written with `log.Printf`, and the package-level
  variable `existingUserIds` (a Go slice that is `nil` until first filled).
-/

set_option autoImplicit false

namespace Rekog

/-! ## Filename parser -/

/-- Go `error` values are modelled by their message text. -/
abbrev Error := String

/-- The character class `[a-z]`. -/
def inLowerRange (c : Char) : Bool := decide ('a' ≤ c) && decide (c ≤ 'z')

/-- Matching a literal piece of the pattern at the start of the text; the
result is the text left after it. -/
def matchLiteral : List Char → List Char → Option (List Char)
  | [], rest => some rest
  | _ :: _, [] => none
  | p :: ps, c :: cs => if p = c then matchLiteral ps cs else none

/-- The tail `[a-z]*_` of the pattern, greedy with backtracking as in Go's
leftmost-first matching: at a letter the repetition is tried first, and when
the rest then fails the underscore is tried at this position.  The result is
the run of letters consumed before the underscore. -/
def matchLowerStarUnderscore : List Char → Option (List Char)
  | [] => none
  | c :: cs =>
    match (if inLowerRange c then matchLowerStarUnderscore cs else none) with
    | some r => some (c :: r)
    | none => if c = '_' then some [] else none

/-- The piece `([a-z]+)_` of the pattern: one letter, then `[a-z]*_`. -/
def matchLowerPlusUnderscore : List Char → Option (List Char)
  | [] => none
  | c :: cs =>
    if inLowerRange c then (matchLowerStarUnderscore cs).map (fun r => c :: r) else none

/-- Model of `regexp.MustCompile("^reference/([a-z]+)_").FindStringSubmatch`:
the empty list stands for Go's `nil` (no match); on a match the list holds the
whole match and the text of the one capture group.  The pattern is anchored, so
it is tried at the start of the text only; the text is taken as its sequence of
characters, all characters of the pattern being ASCII. -/
def FindStringSubmatch (s : String) : List String :=
  match matchLiteral "reference/".data s.data with
  | none => []
  | some rest =>
    match matchLowerPlusUnderscore rest with
    | none => []
    | some g => [String.mk ("reference/".data ++ g ++ ['_']), String.mk g]

/-- Go `getUserIdFromFilename`: the pair is Go's `(string, error)` result,
`none` standing for a `nil` error. -/
def getUserIdFromFilename (filename : String) : String × Option Error :=
  let submatches := FindStringSubmatch filename
  if submatches.length < 2 then
    ("", some ("error parsing filename " ++ filename))
  else
    (submatches.getD 1 "", none)

/-- A string made of lowercase ASCII letters only. -/
def allLower (L : String) : Prop := ∀ c ∈ L.data, 'a' ≤ c ∧ c ≤ 'z'

/-! ## The external services

Only the fields that `main.go` sets or reads are kept.  Pointer fields of a
response (`*string`, `*types.Face`) are taken to be populated, as they are in
every response the service documents; thresholds are the literal constants
of the source. -/

/-- Package-level `StackInfo`. -/
structure StackInfo where
  bucketName : String
  collectionId : String

/-- The SDK type `types.Face`. -/
structure Face where
  FaceId : String
  deriving DecidableEq

/-- The SDK type `types.FaceRecord`. -/
structure FaceRecord where
  Face : Face

/-- The SDK type `types.FaceMatch`. -/
structure FaceMatch where
  Face : Face

/-- The SDK type `types.MatchedUser`. -/
structure MatchedUser where
  UserId : String

/-- The SDK type `types.UserMatch`. -/
structure UserMatch where
  User : MatchedUser

/-- The SDK type `types.User`. -/
structure User where
  UserId : String

/-- The SDK type `types.Object` of the object store. -/
structure Object where
  Key : String

/-- Request of `ListObjectsV2`. -/
structure ListObjectsV2Input where
  Bucket : String
  Prefix : String

/-- Response of `ListObjectsV2`. -/
structure ListObjectsV2Output where
  Contents : List Object

/-- Request of `IndexFaces`; the image is the object `Name` of `Bucket`. -/
structure IndexFacesInput where
  CollectionId : String
  Bucket : String
  Name : String
  MaxFaces : Nat

/-- Response of `IndexFaces`. -/
structure IndexFacesOutput where
  FaceRecords : List FaceRecord

/-- Request of `SearchFaces`. -/
structure SearchFacesInput where
  CollectionId : String
  FaceId : String
  FaceMatchThreshold : Nat

/-- Response of `SearchFaces`. -/
structure SearchFacesOutput where
  FaceMatches : List FaceMatch

/-- Request of `SearchUsers`. -/
structure SearchUsersInput where
  CollectionId : String
  FaceId : String
  UserMatchThreshold : Nat

/-- Response of `SearchUsers`. -/
structure SearchUsersOutput where
  UserMatches : List UserMatch

/-- Request of `ListUsers`. -/
structure ListUsersInput where
  CollectionId : String

/-- Response of `ListUsers`. -/
structure ListUsersOutput where
  Users : List User

/-- Request of `CreateUser`. -/
structure CreateUserInput where
  CollectionId : String
  UserId : String

/-- Request of `AssociateFaces`. -/
structure AssociateFacesInput where
  CollectionId : String
  FaceIds : List String
  UserId : String
  UserMatchThreshold : Nat
  deriving DecidableEq

/-- One external call together with the response it got. -/
inductive Event where
  | ListObjectsV2 (inp : ListObjectsV2Input) (out : Except Error ListObjectsV2Output)
  | IndexFaces (inp : IndexFacesInput) (out : Except Error IndexFacesOutput)
  | SearchFaces (inp : SearchFacesInput) (out : Except Error SearchFacesOutput)
  | SearchUsers (inp : SearchUsersInput) (out : Except Error SearchUsersOutput)
  | ListUsers (inp : ListUsersInput) (out : Except Error ListUsersOutput)
  | CreateUser (inp : CreateUserInput) (out : Except Error Unit)
  | AssociateFaces (inp : AssociateFacesInput) (out : Except Error Unit)

/-- The object store, `*s3.Client`: the response to a request may depend on
the calls made so far. -/
structure S3Client where
  ListObjectsV2 : List Event → ListObjectsV2Input → Except Error ListObjectsV2Output

/-- The face-recognition service, `*rekognition.Client`: the response to a
request may depend on the calls made so far. -/
structure RekognitionClient where
  IndexFaces : List Event → IndexFacesInput → Except Error IndexFacesOutput
  SearchFaces : List Event → SearchFacesInput → Except Error SearchFacesOutput
  SearchUsers : List Event → SearchUsersInput → Except Error SearchUsersOutput
  ListUsers : List Event → ListUsersInput → Except Error ListUsersOutput
  CreateUser : List Event → CreateUserInput → Except Error Unit
  AssociateFaces : List Event → AssociateFacesInput → Except Error Unit

/-- Process state: the package variables `stackInfo` and `existingUserIds`
(`none` is the `nil` slice), the external calls so far in the order they were
made, and the lines written with `log.Printf`. -/
structure World where
  stackInfo : StackInfo
  existingUserIds : Option (List String)
  history : List Event
  logs : List String

/-- Appending an external call to the history. -/
def World.record (w : World) (e : Event) : World :=
  { w with history := w.history ++ [e] }

/-- Go `log.Printf` with the message already formatted. -/
def World.logPrintf (w : World) (msg : String) : World :=
  { w with logs := w.logs ++ [msg] }

/-- How a Go function call ends: it returns its `error` result (`none` is
`nil`), or the goroutine panics. -/
inductive Outcome where
  | returned (err : Option Error)
  | panicked (msg : String)
  deriving DecidableEq

/-- Result of a loop that may leave the enclosing function early. -/
inductive Flow (α : Type) where
  | next (a : α)
  | exit (o : Outcome)
  deriving DecidableEq

/-! ## The workflow -/

/-- Go `getS3Objects`; the result is Go's `([]string, error)`. -/
def getS3Objects (s3Client : S3Client) (bucketName keyPrefix : String) (w : World) :
    (List String × Option Error) × World :=
  let inp : ListObjectsV2Input := { Bucket := bucketName, Prefix := keyPrefix }
  let out := s3Client.ListObjectsV2 w.history inp
  let w := w.record (Event.ListObjectsV2 inp out)
  match out with
  | .error err => (([], some ("error listing s3 objects: " ++ err)), w)
  | .ok objects => ((objects.Contents.map (fun object => object.Key), none), w)

/-- Go `indexFacesByFilename`. -/
def indexFacesByFilename (rekognitionClient : RekognitionClient) (filename : String)
    (maxFaces : Nat) (w : World) : Except Error IndexFacesOutput × World :=
  let inp : IndexFacesInput :=
    { CollectionId := w.stackInfo.collectionId, Bucket := w.stackInfo.bucketName,
      Name := filename, MaxFaces := maxFaces }
  let out := rekognitionClient.IndexFaces w.history inp
  (out, w.record (Event.IndexFaces inp out))

/-- The loop `for _, face := range faces.FaceRecords` of `searchAllFaces`
(lines 127-161); `users` is the slice accumulated so far. -/
def searchAllFaces_loop (rekognitionClient : RekognitionClient) (image : String) :
    List FaceRecord → List String → World → (List String × Option Error) × World
  | [], users, w => ((users, none), w)
  | face :: rest, users, w =>
    let inp : SearchFacesInput :=
      { CollectionId := w.stackInfo.collectionId, FaceId := face.Face.FaceId,
        FaceMatchThreshold := 90 }
    let result := rekognitionClient.SearchFaces w.history inp
    let w := w.record (Event.SearchFaces inp result)
    match result with
    | .error err =>
      ((users, some ("error searching faces: " ++ err ++ " (image: " ++ image ++ ")")), w)
    | .ok result =>
      match result.FaceMatches with
      | [] =>
        searchAllFaces_loop rekognitionClient image rest users
          (w.logPrintf ("No match found for face " ++ face.Face.FaceId ++
            " (image: " ++ image ++ ")"))
      | faceMatch :: _ =>
        let inpU : SearchUsersInput :=
          { CollectionId := w.stackInfo.collectionId, FaceId := faceMatch.Face.FaceId,
            UserMatchThreshold := 75 }
        let searchUsersOutput := rekognitionClient.SearchUsers w.history inpU
        let w := w.record (Event.SearchUsers inpU searchUsersOutput)
        match searchUsersOutput with
        | .error err =>
          ((users, some ("error searching users: " ++ err ++ " (image: " ++ image ++ ")")), w)
        | .ok searchUsersOutput =>
          match searchUsersOutput.UserMatches with
          | [] =>
            searchAllFaces_loop rekognitionClient image rest users
              (w.logPrintf ("No user found for faceId " ++ face.Face.FaceId ++
                " (image: " ++ image ++ ")"))
          | userMatch :: _ =>
            let userId := userMatch.User.UserId
            if !users.contains userId then
              searchAllFaces_loop rekognitionClient image rest (users ++ [userId]) w
            else
              searchAllFaces_loop rekognitionClient image rest users w

/-- Go `searchAllFaces`; the result is Go's `([]string, error)`. -/
def searchAllFaces (rekognitionClient : RekognitionClient) (image : String) (w : World) :
    (List String × Option Error) × World :=
  let users : List String := []
  let (faces, w) := indexFacesByFilename rekognitionClient image 10 w
  match faces with
  | .error err => ((users, some ("error indexing faces: " ++ err)), w)
  | .ok faces =>
    let w :=
      if faces.FaceRecords.length < 1 then
        w.logPrintf ("No face found on image " ++ image)
      else w
    searchAllFaces_loop rekognitionClient image faces.FaceRecords users w

/-- Go `createUser`; the result is Go's `error`. -/
def createUser (rekognitionClient : RekognitionClient) (userId : String) (w : World) :
    Option Error × World :=
  let filled : Option Error × World :=
    match w.existingUserIds with
    | none =>
      let inp : ListUsersInput := { CollectionId := w.stackInfo.collectionId }
      let users := rekognitionClient.ListUsers w.history inp
      let w := w.record (Event.ListUsers inp users)
      match users with
      | .error err => (some ("error requesting existing users " ++ err), w)
      | .ok users =>
        (none, { w with existingUserIds := some (users.Users.map (fun user => user.UserId)) })
    | some _ => (none, w)
  match filled with
  | (some err, w) => (some err, w)
  | (none, w) =>
    if (w.existingUserIds.getD []).contains userId then
      (none, w.logPrintf ("User " ++ userId ++ " already exists"))
    else
      let inp : CreateUserInput :=
        { CollectionId := w.stackInfo.collectionId, UserId := userId }
      let out := rekognitionClient.CreateUser w.history inp
      let w := w.record (Event.CreateUser inp out)
      match out with
      | .error err => (some ("error creating user " ++ err), w)
      | .ok _ => (none, w.logPrintf ("User " ++ userId ++ " created"))

/-- Reading a Go `map[string][]*types.Face`, kept as the list of its entries:
an absent key reads as the `nil` slice. -/
def mapGet : List (String × List Face) → String → List Face
  | [], _ => []
  | (k, v) :: m, key => if k = key then v else mapGet m key

/-- Assignment `m[key] = value` on a Go map: an existing entry is replaced, a
new key gets a new entry. -/
def mapSet : List (String × List Face) → String → List Face → List (String × List Face)
  | [], key, value => [(key, value)]
  | (k, v) :: m, key, value =>
    if k = key then (k, value) :: m else (k, v) :: mapSet m key value

/-- The first loop of `indexAndAssociateFaces` (lines 186-204): `faces` is the
map built so far. -/
def indexAndAssociateFaces_index (rekognitionClient : RekognitionClient) :
    List String → List (String × List Face) → World →
      Flow (List (String × List Face)) × World
  | [], faces, w => (Flow.next faces, w)
  | key :: rest, faces, w =>
    match getUserIdFromFilename key with
    | (_, some err) =>
      (Flow.exit (Outcome.returned (some ("error getting user id from filename " ++ err))), w)
    | (userId, none) =>
      let (indexFacesOutput, w) := indexFacesByFilename rekognitionClient key 1 w
      match indexFacesOutput with
      | .error err => (Flow.exit (Outcome.returned (some ("error indexing faces " ++ err))), w)
      | .ok indexFacesOutput =>
        let w :=
          if indexFacesOutput.FaceRecords.length < 1 then
            w.logPrintf ("No face found in image " ++ key)
          else if indexFacesOutput.FaceRecords.length > 1 then
            w.logPrintf ("More than one face found in image " ++ key)
          else w
        match indexFacesOutput.FaceRecords with
        | [] =>
          (Flow.exit (Outcome.panicked "runtime error: index out of range [0] with length 0"), w)
        | record :: _ =>
          indexAndAssociateFaces_index rekognitionClient rest
            (mapSet faces userId (mapGet faces userId ++ [record.Face])) w

/-- The second loop of `indexAndAssociateFaces` (lines 206-225), over the
entries of the map in the order the `range` statement visits them. -/
def indexAndAssociateFaces_associate (rekognitionClient : RekognitionClient) :
    List (String × List Face) → World → Option Error × World
  | [], w => (none, w)
  | (userId, faceRecords) :: rest, w =>
    match createUser rekognitionClient userId w with
    | (some err, w) => (some ("error creating user " ++ err), w)
    | (none, w) =>
      let faceIds := faceRecords.map (fun face => face.FaceId)
      let inp : AssociateFacesInput :=
        { CollectionId := w.stackInfo.collectionId, FaceIds := faceIds, UserId := userId,
          UserMatchThreshold := 75 }
      let out := rekognitionClient.AssociateFaces w.history inp
      let w := w.record (Event.AssociateFaces inp out)
      match out with
      | .error err => (some ("error associating faces " ++ err), w)
      | .ok _ => indexAndAssociateFaces_associate rekognitionClient rest w

/-- Go `indexAndAssociateFaces`.  Go leaves the order in which `range` visits
a map unspecified; `rangeOrder` is that order, and the theorems that depend on
it assume only that it is a permutation of the entries. -/
def indexAndAssociateFaces (rekognitionClient : RekognitionClient) (s3Client : S3Client)
    (rangeOrder : List (String × List Face) → List (String × List Face)) (w : World) :
    Outcome × World :=
  match getS3Objects s3Client w.stackInfo.bucketName "reference/" w with
  | ((_, some err), w) =>
    (Outcome.returned (some ("error getting reference images: " ++ err)), w)
  | ((objects, none), w) =>
    match indexAndAssociateFaces_index rekognitionClient objects [] w with
    | (Flow.exit o, w) => (o, w)
    | (Flow.next faces, w) =>
      match indexAndAssociateFaces_associate rekognitionClient (rangeOrder faces) w with
      | (err, w) => (Outcome.returned err, w)

/-! ## Vocabulary of the statements -/

/-- The external calls made between the state `w` and the later state `w'`. -/
def newEvents (w w' : World) : List Event := w'.history.drop w.history.length

/-- The log lines written between the state `w` and the later state `w'`. -/
def newLogs (w w' : World) : List String := w'.logs.drop w.logs.length

/-- A response without error. -/
def isOk {α : Type} : Except Error α → Bool
  | .ok _ => true
  | .error _ => false

/-- The call got a response without error. -/
def Event.succeeded : Event → Bool
  | .ListObjectsV2 _ out => isOk out
  | .IndexFaces _ out => isOk out
  | .SearchFaces _ out => isOk out
  | .SearchUsers _ out => isOk out
  | .ListUsers _ out => isOk out
  | .CreateUser _ out => isOk out
  | .AssociateFaces _ out => isOk out

/-- The call is an `IndexFaces` request. -/
def Event.isIndexFaces : Event → Bool
  | .IndexFaces _ _ => true
  | _ => false

/-- The call is a face search (`SearchFaces`) or an identity search
(`SearchUsers`). -/
def Event.isSearch : Event → Bool
  | .SearchFaces _ _ => true
  | .SearchUsers _ _ => true
  | _ => false

/-- The call is a `ListUsers` request. -/
def Event.isListUsers : Event → Bool
  | .ListUsers _ _ => true
  | _ => false

/-- The call is a `CreateUser` request. -/
def Event.isCreateUser : Event → Bool
  | .CreateUser _ _ => true
  | _ => false

/-- The call is a `CreateUser` request for the identity `userId`. -/
def Event.createsUser (userId : String) : Event → Bool
  | .CreateUser inp _ => inp.UserId == userId
  | _ => false

/-- The call is an `AssociateFaces` request. -/
def Event.isAssociateFaces : Event → Bool
  | .AssociateFaces _ _ => true
  | _ => false

/-- Operations of the face-recognition service that change the contents of
the collection: `IndexFaces` detects the faces of an image and adds them to
the collection (an indexed face is "registered in the collection with a unique
face id"), `CreateUser` adds an identity, `AssociateFaces` adds face-to-identity
associations.  The searches and the listings only read. -/
def Event.changesCollection : Event → Bool
  | .IndexFaces _ _ => true
  | .CreateUser _ _ => true
  | .AssociateFaces _ _ => true
  | _ => false

/-- The identity a call resolved: the first identity of a `SearchUsers`
response that has one. -/
def resolvedId : Event → Option String
  | .SearchUsers _ (.ok out) => out.UserMatches.head?.map (fun m => m.User.UserId)
  | _ => none

/-- The identity ids resolved in a run, in the order they were resolved. -/
def resolvedIds (es : List Event) : List String := es.filterMap resolvedId

/-- The resolution of the detected faces as the specification words it
(section 4.2), without the accumulation into the result: for each detected
face in detection order, search the collection for matching faces with
threshold 90; with no match the face gives nothing; otherwise search the
identities of the first (highest-similarity) match with threshold 75; with no
identity the face gives nothing, otherwise it gives the first identity.
`history` is the calls made before, which the answers of the service may
depend on.  The sequence ends at a call that fails. -/
def specResolveFaces (service : RekognitionClient) (stackInfo : StackInfo) :
    List FaceRecord → List Event → List String
  | [], _ => []
  | face :: rest, history =>
    match service.SearchFaces history ⟨stackInfo.collectionId, face.Face.FaceId, 90⟩ with
    | .error _ => []
    | .ok found =>
      match found.FaceMatches with
      | [] =>
        specResolveFaces service stackInfo rest
          (history ++ [Event.SearchFaces ⟨stackInfo.collectionId, face.Face.FaceId, 90⟩
            (.ok found)])
      | best :: _ =>
        match service.SearchUsers
          (history ++ [Event.SearchFaces ⟨stackInfo.collectionId, face.Face.FaceId, 90⟩
            (.ok found)])
          ⟨stackInfo.collectionId, best.Face.FaceId, 75⟩ with
        | .error _ => []
        | .ok identities =>
          match identities.UserMatches with
          | [] =>
            specResolveFaces service stackInfo rest
              (history ++ [Event.SearchFaces ⟨stackInfo.collectionId, face.Face.FaceId, 90⟩
                  (.ok found),
                Event.SearchUsers ⟨stackInfo.collectionId, best.Face.FaceId, 75⟩
                  (.ok identities)])
          | top :: _ =>
            top.User.UserId ::
              specResolveFaces service stackInfo rest
                (history ++ [Event.SearchFaces ⟨stackInfo.collectionId, face.Face.FaceId, 90⟩
                    (.ok found),
                  Event.SearchUsers ⟨stackInfo.collectionId, best.Face.FaceId, 75⟩
                    (.ok identities)])

/-- The `AssociateFaces` requests among a list of calls, in order. -/
def associateRequests : List Event → List AssociateFacesInput
  | [] => []
  | Event.AssociateFaces inp _ :: es => inp :: associateRequests es
  | _ :: es => associateRequests es

/-- A list with every occurrence of an element after its first removed. -/
def firstOccurrences : List String → List String
  | [] => []
  | x :: xs => x :: (firstOccurrences xs).filter (fun y => y ≠ x)

/-- Repeated calls of `createUser`, one per id in turn, as one run; the result
lists the `error` of each call. -/
def createUserSeq (rekognitionClient : RekognitionClient) :
    List String → World → List (Option Error) × World
  | [], w => ([], w)
  | userId :: rest, w =>
    let (err, w) := createUser rekognitionClient userId w
    let (errs, w) := createUserSeq rekognitionClient rest w
    (err :: errs, w)

/-- The face records an `IndexFaces` call returned, when it succeeded. -/
def Event.indexedFaces : Event → Option (List FaceRecord)
  | .IndexFaces _ (.ok out) => some out.FaceRecords
  | _ => none

/-- Given the reference keys paired with the face indexed for each, the faces
of the keys that carry the identity label `label`, in key order. -/
def facesOf (label : String) (indexed : List (String × Face)) : List Face :=
  (indexed.filter (fun kf => (getUserIdFromFilename kf.1).1 = label)).map (fun kf => kf.2)

/-! ## Concrete services for the examples -/

/-- A fresh process: package variables as at program start (the cache is
`nil`), no call made, nothing logged. -/
def startWorld : World :=
  { stackInfo := { bucketName := "bucket", collectionId := "faces" },
    existingUserIds := none, history := [], logs := [] }

/-- A service on an empty collection: every call succeeds, no face is ever
found and no identity exists. -/
def emptyService : RekognitionClient :=
  { IndexFaces := fun _ _ => .ok { FaceRecords := [] },
    SearchFaces := fun _ _ => .ok { FaceMatches := [] },
    SearchUsers := fun _ _ => .ok { UserMatches := [] },
    ListUsers := fun _ _ => .ok { Users := [] },
    CreateUser := fun _ _ => .ok (),
    AssociateFaces := fun _ _ => .ok () }

/-- A service for a group picture with four faces, detected in the order
`d1, d2, d3, d4`; they match the reference faces `r1 .. r4`, which belong to
alice, bob, alice and carol. -/
def groupService : RekognitionClient :=
  { IndexFaces := fun _ _ =>
      .ok { FaceRecords := [⟨⟨"d1"⟩⟩, ⟨⟨"d2"⟩⟩, ⟨⟨"d3"⟩⟩, ⟨⟨"d4"⟩⟩] },
    SearchFaces := fun _ inp =>
      .ok { FaceMatches :=
        if inp.FaceId = "d1" then [⟨⟨"r1"⟩⟩]
        else if inp.FaceId = "d2" then [⟨⟨"r2"⟩⟩]
        else if inp.FaceId = "d3" then [⟨⟨"r3"⟩⟩]
        else if inp.FaceId = "d4" then [⟨⟨"r4"⟩⟩]
        else [] },
    SearchUsers := fun _ inp =>
      .ok { UserMatches :=
        if inp.FaceId = "r1" then [⟨⟨"alice"⟩⟩]
        else if inp.FaceId = "r2" then [⟨⟨"bob"⟩⟩]
        else if inp.FaceId = "r3" then [⟨⟨"alice"⟩⟩]
        else if inp.FaceId = "r4" then [⟨⟨"carol"⟩⟩]
        else [] },
    ListUsers := fun _ _ => .ok { Users := [] },
    CreateUser := fun _ _ => .ok (),
    AssociateFaces := fun _ _ => .ok () }

/-- A service on a collection in which the identity alice already exists. -/
def aliceService : RekognitionClient :=
  { emptyService with ListUsers := fun _ _ => .ok { Users := [⟨"alice"⟩] } }

/-- A service that finds no face in `reference/alice_1.jpg` and one face in
every other image, and accepts every other request. -/
def noFaceForAlice : RekognitionClient :=
  { emptyService with
    IndexFaces := fun _ inp =>
      .ok { FaceRecords :=
        if inp.Name = "reference/alice_1.jpg" then [] else [⟨⟨"face-" ++ inp.Name⟩⟩] } }

/-- An object store that lists the given keys, whatever the request. -/
def storeOf (keys : List String) : S3Client :=
  { ListObjectsV2 := fun _ _ => .ok { Contents := keys.map (fun k => ⟨k⟩) } }

/-- A service that finds one face in each of three reference images, named
after the image, and accepts every other request. -/
def referenceService : RekognitionClient :=
  { emptyService with
    IndexFaces := fun _ inp =>
      .ok { FaceRecords :=
        if inp.Name = "reference/alice_1.jpg" then [⟨⟨"face1"⟩⟩]
        else if inp.Name = "reference/alice_2.jpg" then [⟨⟨"face2"⟩⟩]
        else if inp.Name = "reference/bob_1.jpg" then [⟨⟨"face3"⟩⟩]
        else [⟨⟨"other"⟩⟩] } }

/-! ## Proofs

### Lemmas on the matcher -/

theorem matchLiteral_append (p rest : List Char) : matchLiteral p (p ++ rest) = some rest := by
  induction p with
  | nil => cases rest <;> rfl
  | cons a p ih => simp [matchLiteral, ih]

theorem matchLiteral_some {p s rest : List Char} (h : matchLiteral p s = some rest) :
    s = p ++ rest := by
  induction p generalizing s with
  | nil =>
    cases s <;> simp [matchLiteral] at h <;> simp [h]
  | cons a p ih =>
    cases s with
    | nil => simp [matchLiteral] at h
    | cons c cs =>
      simp only [matchLiteral] at h
      split at h
      · next hpc => subst hpc; simp [ih h]
      · simp at h

theorem inLowerRange_iff (c : Char) : inLowerRange c = true ↔ ('a' ≤ c ∧ c ≤ 'z') := by
  simp [inLowerRange]

theorem underscore_not_lower : inLowerRange '_' = false := by decide

theorem matchLowerStarUnderscore_append (g rest : List Char)
    (hg : ∀ c ∈ g, inLowerRange c = true) :
    matchLowerStarUnderscore (g ++ '_' :: rest) = some g := by
  induction g with
  | nil => simp [matchLowerStarUnderscore, underscore_not_lower]
  | cons a g ih =>
    have ha : inLowerRange a = true := hg a (by simp)
    have ih' := ih (fun c hc => hg c (by simp [hc]))
    simp only [List.cons_append, matchLowerStarUnderscore, ha, if_true, List.append_eq, ih']

theorem matchLowerStarUnderscore_some {s g : List Char}
    (h : matchLowerStarUnderscore s = some g) :
    (∀ c ∈ g, inLowerRange c = true) ∧ ∃ rest, s = g ++ '_' :: rest := by
  induction s generalizing g with
  | nil => simp [matchLowerStarUnderscore] at h
  | cons c cs ih =>
    simp only [matchLowerStarUnderscore] at h
    split at h
    · next r hr =>
      injection h with h
      subst h
      by_cases hc : inLowerRange c = true
      · simp only [hc, if_true] at hr
        obtain ⟨h1, rest, h2⟩ := ih hr
        refine ⟨?_, rest, by simp [h2]⟩
        intro x hx
        rcases List.mem_cons.mp hx with hx | hx
        · subst hx; exact hc
        · exact h1 x hx
      · simp [hc] at hr
    · split at h
      · next hcu =>
        injection h with h
        subst h
        subst hcu
        exact ⟨by simp, cs, by simp⟩
      · simp at h

theorem matchLowerPlusUnderscore_append (g rest : List Char) (hne : g ≠ [])
    (hg : ∀ c ∈ g, inLowerRange c = true) :
    matchLowerPlusUnderscore (g ++ '_' :: rest) = some g := by
  cases g with
  | nil => exact absurd rfl hne
  | cons a g =>
    have ha : inLowerRange a = true := hg a (by simp)
    have hs := matchLowerStarUnderscore_append g rest (fun c hc => hg c (by simp [hc]))
    simp [matchLowerPlusUnderscore, ha, hs]

theorem matchLowerPlusUnderscore_some {s g : List Char}
    (h : matchLowerPlusUnderscore s = some g) :
    g ≠ [] ∧ (∀ c ∈ g, inLowerRange c = true) ∧ ∃ rest, s = g ++ '_' :: rest := by
  cases s with
  | nil => simp [matchLowerPlusUnderscore] at h
  | cons c cs =>
    simp only [matchLowerPlusUnderscore] at h
    split at h
    · next hc =>
      cases hr : matchLowerStarUnderscore cs with
      | none => simp [hr] at h
      | some r =>
        simp only [hr, Option.map_some', Option.some.injEq] at h
        subst h
        obtain ⟨h1, rest, h2⟩ := matchLowerStarUnderscore_some hr
        refine ⟨by simp, ?_, rest, by simp [h2]⟩
        intro x hx
        rcases List.mem_cons.mp hx with hx | hx
        · subst hx; exact hc
        · exact h1 x hx
    · simp at h

theorem FindStringSubmatch_reference (L s : String) (hne : L ≠ "") (hl : allLower L) :
    FindStringSubmatch ("reference/" ++ L ++ "_" ++ s) = ["reference/" ++ L ++ "_", L] := by
  have hdata : ("reference/" ++ L ++ "_" ++ s).data
      = "reference/".data ++ (L.data ++ '_' :: s.data) := by
    simp [String.data_append]
  have hne' : L.data ≠ [] := by
    intro h
    apply hne
    cases L
    simp_all
  have hlow : ∀ c ∈ L.data, inLowerRange c = true :=
    fun c hc => (inLowerRange_iff c).mpr (hl c hc)
  unfold FindStringSubmatch
  rw [hdata, matchLiteral_append]
  simp only [matchLowerPlusUnderscore_append L.data s.data hne' hlow]
  have e1 : String.mk ("reference/".data ++ L.data ++ ['_']) = "reference/" ++ L ++ "_" := by
    apply String.ext
    simp [String.data_append]
  have e2 : String.mk L.data = L := rfl
  rw [e1, e2]

theorem FindStringSubmatch_shape {k : String} (h : FindStringSubmatch k ≠ []) :
    ∃ L s : String, L ≠ "" ∧ allLower L ∧ k = "reference/" ++ L ++ "_" ++ s := by
  unfold FindStringSubmatch at h
  split at h
  · exact absurd rfl h
  · next rest hlit =>
    split at h
    · exact absurd rfl h
    · next g hg =>
      obtain ⟨hne, hlow, tail, htail⟩ := matchLowerPlusUnderscore_some hg
      refine ⟨String.mk g, String.mk tail, ?_, ?_, ?_⟩
      · intro hh
        apply hne
        have := congrArg String.data hh
        simpa using this
      · intro c hc
        exact (inLowerRange_iff c).mp (hlow c hc)
      · apply String.ext
        rw [matchLiteral_some hlit, htail]
        simp [String.data_append]

theorem not_reference_shape {k : String} (h : FindStringSubmatch k = []) :
    ¬ ∃ L s : String, L ≠ "" ∧ allLower L ∧ k = "reference/" ++ L ++ "_" ++ s := by
  rintro ⟨L, s, hne, hl, rfl⟩
  rw [FindStringSubmatch_reference L s hne hl] at h
  exact absurd h (by simp)

/-! ## The filename parser: claims C1 and C2 -/

/-- C1: for every non-empty string `L` of lowercase ASCII letters and every
string `s`, `getUserIdFromFilename ("reference/" ++ L ++ "_" ++ s)` succeeds
(nil error) and returns exactly `L`. -/
theorem getUserIdFromFilename_reference (L s : String) (hne : L ≠ "") (hl : allLower L) :
    getUserIdFromFilename ("reference/" ++ L ++ "_" ++ s) = (L, none) := by
  simp [getUserIdFromFilename, FindStringSubmatch_reference L s hne hl]

/-- Witness of C1: the key `reference/alice_01.jpg` gives the label `alice`. -/
theorem getUserIdFromFilename_reference_witness :
    ("alice" ≠ "" ∧ allLower "alice") ∧
      getUserIdFromFilename ("reference/" ++ "alice" ++ "_" ++ "01.jpg") = ("alice", none) :=
  ⟨⟨by decide, by unfold allLower; decide⟩,
    getUserIdFromFilename_reference "alice" "01.jpg" (by decide) (by unfold allLower; decide)⟩

/-- C2: every key that is not `"reference/" ++ L ++ "_" ++ s` with `L` a
non-empty run of lowercase ASCII letters makes `getUserIdFromFilename` fail
with the parse error, and the label returned is the empty string. -/
theorem getUserIdFromFilename_other (k : String)
    (h : ¬ ∃ L s : String, L ≠ "" ∧ allLower L ∧ k = "reference/" ++ L ++ "_" ++ s) :
    getUserIdFromFilename k = ("", some ("error parsing filename " ++ k)) := by
  have hnil : FindStringSubmatch k = [] := by
    by_contra hc
    exact h (FindStringSubmatch_shape hc)
  simp [getUserIdFromFilename, hnil]

/-- Witness of C2: `reference/Bob_01.jpg` (uppercase letter) is not of the
required form and fails with the parse error and the empty label. -/
theorem getUserIdFromFilename_other_witness :
    (¬ ∃ L s : String, L ≠ "" ∧ allLower L ∧
        "reference/Bob_01.jpg" = "reference/" ++ L ++ "_" ++ s) ∧
      getUserIdFromFilename "reference/Bob_01.jpg"
        = ("", some ("error parsing filename " ++ "reference/Bob_01.jpg")) :=
  ⟨not_reference_shape (by decide),
    getUserIdFromFilename_other "reference/Bob_01.jpg" (not_reference_shape (by decide))⟩

/-! ### Lemmas on lists and histories -/

theorem newEvents_of_append {w w' : World} {new : List Event}
    (h : w'.history = w.history ++ new) : newEvents w w' = new := by
  simp [newEvents, h]

theorem newLogs_of_append {w w' : World} {new : List String}
    (h : w'.logs = w.logs ++ new) : newLogs w w' = new := by
  simp [newLogs, h]

theorem firstOccurrences_mem (r : List String) (x : String) :
    x ∈ firstOccurrences r ↔ x ∈ r := by
  induction r with
  | nil => simp [firstOccurrences]
  | cons a r ih =>
    simp only [firstOccurrences, List.mem_cons, List.mem_filter, ih]
    by_cases hx : x = a <;> simp [hx]

theorem firstOccurrences_nodup (r : List String) : (firstOccurrences r).Nodup := by
  induction r with
  | nil => simp [firstOccurrences]
  | cons a r ih =>
    simp only [firstOccurrences, List.nodup_cons]
    exact ⟨by simp [List.mem_filter], ih.filter _⟩

theorem foldl_accumulate_eq (r users : List String) :
    r.foldl (fun acc x => if !acc.contains x then acc ++ [x] else acc) users
      = users ++ (firstOccurrences r).filter (fun y => decide (y ∉ users)) := by
  induction r generalizing users with
  | nil => simp [firstOccurrences]
  | cons a r ih =>
    simp only [List.foldl_cons, firstOccurrences]
    by_cases ha : a ∈ users
    · have hc : users.contains a = true := by simpa using ha
      simp only [hc, Bool.not_true, Bool.false_eq_true, if_false, ih]
      congr 1
      simp only [List.filter_cons, ha, not_true_eq_false, decide_False, Bool.false_eq_true,
        if_false, List.filter_filter]
      apply List.filter_congr
      intro y _
      by_cases hy : y ∈ users
      · simp [hy]
      · have : y ≠ a := fun h => hy (h ▸ ha)
        simp [hy, this]
    · have hc : users.contains a = false := by simpa using ha
      simp only [hc, Bool.not_false, if_true, ih]
      simp only [List.filter_cons, ha, not_false_eq_true, decide_True, if_true,
        List.filter_filter, List.append_assoc, List.singleton_append]
      congr 2
      apply List.filter_congr
      intro y _
      by_cases hy : y = a
      · simp [hy]
      · simp [hy]

/-! ### The face loop of `searchAllFaces` -/

theorem loop_searchFaces_error (c : RekognitionClient) (image : String) (face : FaceRecord)
    (rest : List FaceRecord) (users : List String) (w : World) (err : Error)
    (h : c.SearchFaces w.history ⟨w.stackInfo.collectionId, face.Face.FaceId, 90⟩ = .error err) :
    searchAllFaces_loop c image (face :: rest) users w
      = ((users, some ("error searching faces: " ++ err ++ " (image: " ++ image ++ ")")),
          w.record (Event.SearchFaces ⟨w.stackInfo.collectionId, face.Face.FaceId, 90⟩
            (.error err))) := by
  simp only [searchAllFaces_loop, h]

theorem loop_no_match (c : RekognitionClient) (image : String) (face : FaceRecord)
    (rest : List FaceRecord) (users : List String) (w : World) (result : SearchFacesOutput)
    (h : c.SearchFaces w.history ⟨w.stackInfo.collectionId, face.Face.FaceId, 90⟩ = .ok result)
    (hm : result.FaceMatches = []) :
    searchAllFaces_loop c image (face :: rest) users w
      = searchAllFaces_loop c image rest users
          ((w.record (Event.SearchFaces ⟨w.stackInfo.collectionId, face.Face.FaceId, 90⟩
            (.ok result))).logPrintf
            ("No match found for face " ++ face.Face.FaceId ++ " (image: " ++ image ++ ")")) := by
  simp only [searchAllFaces_loop, h, hm]

theorem loop_searchUsers_error (c : RekognitionClient) (image : String) (face : FaceRecord)
    (rest : List FaceRecord) (users : List String) (w : World) (result : SearchFacesOutput)
    (faceMatch : FaceMatch) (tl : List FaceMatch) (err : Error)
    (h : c.SearchFaces w.history ⟨w.stackInfo.collectionId, face.Face.FaceId, 90⟩ = .ok result)
    (hm : result.FaceMatches = faceMatch :: tl)
    (hu : c.SearchUsers
      (w.history ++ [Event.SearchFaces ⟨w.stackInfo.collectionId, face.Face.FaceId, 90⟩
        (.ok result)])
      ⟨w.stackInfo.collectionId, faceMatch.Face.FaceId, 75⟩ = .error err) :
    searchAllFaces_loop c image (face :: rest) users w
      = ((users, some ("error searching users: " ++ err ++ " (image: " ++ image ++ ")")),
          (w.record (Event.SearchFaces ⟨w.stackInfo.collectionId, face.Face.FaceId, 90⟩
            (.ok result))).record
            (Event.SearchUsers ⟨w.stackInfo.collectionId, faceMatch.Face.FaceId, 75⟩
              (.error err))) := by
  simp only [searchAllFaces_loop, h, hm, World.record, hu]

theorem loop_no_user (c : RekognitionClient) (image : String) (face : FaceRecord)
    (rest : List FaceRecord) (users : List String) (w : World) (result : SearchFacesOutput)
    (faceMatch : FaceMatch) (tl : List FaceMatch) (out : SearchUsersOutput)
    (h : c.SearchFaces w.history ⟨w.stackInfo.collectionId, face.Face.FaceId, 90⟩ = .ok result)
    (hm : result.FaceMatches = faceMatch :: tl)
    (hu : c.SearchUsers
      (w.history ++ [Event.SearchFaces ⟨w.stackInfo.collectionId, face.Face.FaceId, 90⟩
        (.ok result)])
      ⟨w.stackInfo.collectionId, faceMatch.Face.FaceId, 75⟩ = .ok out)
    (hn : out.UserMatches = []) :
    searchAllFaces_loop c image (face :: rest) users w
      = searchAllFaces_loop c image rest users
          (((w.record (Event.SearchFaces ⟨w.stackInfo.collectionId, face.Face.FaceId, 90⟩
            (.ok result))).record
            (Event.SearchUsers ⟨w.stackInfo.collectionId, faceMatch.Face.FaceId, 75⟩
              (.ok out))).logPrintf
            ("No user found for faceId " ++ face.Face.FaceId ++ " (image: " ++ image ++ ")")) := by
  simp only [searchAllFaces_loop, h, hm, World.record, hu, hn]

theorem loop_user (c : RekognitionClient) (image : String) (face : FaceRecord)
    (rest : List FaceRecord) (users : List String) (w : World) (result : SearchFacesOutput)
    (faceMatch : FaceMatch) (tl : List FaceMatch) (out : SearchUsersOutput)
    (userMatch : UserMatch) (tlU : List UserMatch)
    (h : c.SearchFaces w.history ⟨w.stackInfo.collectionId, face.Face.FaceId, 90⟩ = .ok result)
    (hm : result.FaceMatches = faceMatch :: tl)
    (hu : c.SearchUsers
      (w.history ++ [Event.SearchFaces ⟨w.stackInfo.collectionId, face.Face.FaceId, 90⟩
        (.ok result)])
      ⟨w.stackInfo.collectionId, faceMatch.Face.FaceId, 75⟩ = .ok out)
    (hn : out.UserMatches = userMatch :: tlU) :
    searchAllFaces_loop c image (face :: rest) users w
      = searchAllFaces_loop c image rest
          (if !users.contains userMatch.User.UserId then users ++ [userMatch.User.UserId]
            else users)
          ((w.record (Event.SearchFaces ⟨w.stackInfo.collectionId, face.Face.FaceId, 90⟩
            (.ok result))).record
            (Event.SearchUsers ⟨w.stackInfo.collectionId, faceMatch.Face.FaceId, 75⟩
              (.ok out))) := by
  simp only [searchAllFaces_loop, h, hm, World.record, hu, hn]
  split <;> rfl

/-- What one run of the face loop does: it only appends searches to the
history, leaves the package variables alone, and, when no search fails,
returns the accumulated ids without error. -/
theorem searchAllFaces_loop_spec (c : RekognitionClient) (image : String)
    (faces : List FaceRecord) (users : List String) (w : World) :
    ∃ new : List Event,
      (searchAllFaces_loop c image faces users w).2.history = w.history ++ new ∧
      (∀ e ∈ new, e.isSearch = true) ∧
      (searchAllFaces_loop c image faces users w).2.existingUserIds = w.existingUserIds ∧
      (faces = [] → new = []) ∧
      ((∀ e ∈ new, e.succeeded = true) →
        (searchAllFaces_loop c image faces users w).1
          = ((resolvedIds new).foldl
              (fun acc x => if !acc.contains x then acc ++ [x] else acc) users, none)) := by
  induction faces generalizing users w with
  | nil => exact ⟨[], by simp [searchAllFaces_loop, resolvedIds]⟩
  | cons face rest ih =>
    cases hSF : c.SearchFaces w.history ⟨w.stackInfo.collectionId, face.Face.FaceId, 90⟩ with
    | error err =>
      rw [loop_searchFaces_error c image face rest users w err hSF]
      refine ⟨[Event.SearchFaces ⟨w.stackInfo.collectionId, face.Face.FaceId, 90⟩ (.error err)],
        by simp [World.record], ?_, rfl, by simp, ?_⟩
      · simp [Event.isSearch]
      · intro h
        simp [Event.succeeded, isOk] at h
    | ok result =>
      cases hFM : result.FaceMatches with
      | nil =>
        rw [loop_no_match c image face rest users w result hSF hFM]
        obtain ⟨new, h1, h2, h3, _, h4⟩ := ih users
          ((w.record (Event.SearchFaces ⟨w.stackInfo.collectionId, face.Face.FaceId, 90⟩
            (.ok result))).logPrintf
            ("No match found for face " ++ face.Face.FaceId ++ " (image: " ++ image ++ ")"))
        refine ⟨Event.SearchFaces ⟨w.stackInfo.collectionId, face.Face.FaceId, 90⟩
          (.ok result) :: new, ?_, ?_, ?_, by simp, ?_⟩
        · simpa [World.record, World.logPrintf] using h1
        · intro e he
          rcases List.mem_cons.mp he with he | he
          · subst he; rfl
          · exact h2 e he
        · simpa [World.record, World.logPrintf] using h3
        · intro hs
          have := h4 (fun e he => hs e (List.mem_cons_of_mem _ he))
          simpa [resolvedIds, List.filterMap_cons, resolvedId] using this
      | cons faceMatch tl =>
        cases hSU : c.SearchUsers
            (w.history ++ [Event.SearchFaces ⟨w.stackInfo.collectionId, face.Face.FaceId, 90⟩
              (.ok result)])
            ⟨w.stackInfo.collectionId, faceMatch.Face.FaceId, 75⟩ with
        | error err =>
          rw [loop_searchUsers_error c image face rest users w result faceMatch tl err hSF hFM hSU]
          refine ⟨[Event.SearchFaces ⟨w.stackInfo.collectionId, face.Face.FaceId, 90⟩
              (.ok result),
            Event.SearchUsers ⟨w.stackInfo.collectionId, faceMatch.Face.FaceId, 75⟩
              (.error err)], by simp [World.record], ?_, rfl, by simp, ?_⟩
          · simp [Event.isSearch]
          · intro h
            simp [Event.succeeded, isOk] at h
        | ok out =>
          cases hUM : out.UserMatches with
          | nil =>
            rw [loop_no_user c image face rest users w result faceMatch tl out hSF hFM hSU hUM]
            obtain ⟨new, h1, h2, h3, _, h4⟩ := ih users
              (((w.record (Event.SearchFaces ⟨w.stackInfo.collectionId, face.Face.FaceId, 90⟩
                (.ok result))).record
                (Event.SearchUsers ⟨w.stackInfo.collectionId, faceMatch.Face.FaceId, 75⟩
                  (.ok out))).logPrintf
                ("No user found for faceId " ++ face.Face.FaceId ++ " (image: " ++ image ++ ")"))
            refine ⟨Event.SearchFaces ⟨w.stackInfo.collectionId, face.Face.FaceId, 90⟩
                (.ok result) ::
              Event.SearchUsers ⟨w.stackInfo.collectionId, faceMatch.Face.FaceId, 75⟩
                (.ok out) :: new, ?_, ?_, ?_, by simp, ?_⟩
            · simpa [World.record, World.logPrintf] using h1
            · intro e he
              rcases List.mem_cons.mp he with he | he
              · subst he; rfl
              · rcases List.mem_cons.mp he with he | he
                · subst he; rfl
                · exact h2 e he
            · simpa [World.record, World.logPrintf] using h3
            · intro hs
              have := h4 (fun e he =>
                hs e (List.mem_cons_of_mem _ (List.mem_cons_of_mem _ he)))
              simpa [resolvedIds, List.filterMap_cons, resolvedId, hUM] using this
          | cons userMatch tlU =>
            rw [loop_user c image face rest users w result faceMatch tl out userMatch tlU
              hSF hFM hSU hUM]
            obtain ⟨new, h1, h2, h3, _, h4⟩ := ih
              (if !users.contains userMatch.User.UserId then users ++ [userMatch.User.UserId]
                else users)
              ((w.record (Event.SearchFaces ⟨w.stackInfo.collectionId, face.Face.FaceId, 90⟩
                (.ok result))).record
                (Event.SearchUsers ⟨w.stackInfo.collectionId, faceMatch.Face.FaceId, 75⟩
                  (.ok out)))
            refine ⟨Event.SearchFaces ⟨w.stackInfo.collectionId, face.Face.FaceId, 90⟩
                (.ok result) ::
              Event.SearchUsers ⟨w.stackInfo.collectionId, faceMatch.Face.FaceId, 75⟩
                (.ok out) :: new, ?_, ?_, ?_, by simp, ?_⟩
            · simpa [World.record] using h1
            · intro e he
              rcases List.mem_cons.mp he with he | he
              · subst he; rfl
              · rcases List.mem_cons.mp he with he | he
                · subst he; rfl
                · exact h2 e he
            · simpa [World.record] using h3
            · intro hs
              have := h4 (fun e he =>
                hs e (List.mem_cons_of_mem _ (List.mem_cons_of_mem _ he)))
              simpa [resolvedIds, List.filterMap_cons, resolvedId, hUM] using this

theorem newEvents_self (w : World) : newEvents w w = [] := by
  simp [newEvents]

/-- Calls seen from an earlier state: those up to a middle state, then those
after it. -/
theorem newEvents_trans {w w' w'' : World} {a : List Event}
    (h1 : w'.history = w.history ++ a) (h2 : ∃ b, w''.history = w'.history ++ b) :
    newEvents w w'' = a ++ newEvents w' w'' := by
  obtain ⟨b, hb⟩ := h2
  rw [newEvents_of_append hb]
  apply newEvents_of_append
  rw [hb, h1, List.append_assoc]

theorem resolvedIds_append (a b : List Event) :
    resolvedIds (a ++ b) = resolvedIds a ++ resolvedIds b := by
  simp [resolvedIds, List.filterMap_append]

theorem searchAllFaces_loop_history (c : RekognitionClient) (image : String)
    (faces : List FaceRecord) (users : List String) (w : World) :
    ∃ b, (searchAllFaces_loop c image faces users w).2.history = w.history ++ b := by
  obtain ⟨new, h, _⟩ := searchAllFaces_loop_spec c image faces users w
  exact ⟨new, h⟩

/-- When no search of the face loop fails, the identities its identity
searches returned are, in order, those the specification's resolution of the
same faces gives. -/
theorem searchAllFaces_loop_resolves (c : RekognitionClient) (image : String)
    (faces : List FaceRecord) (users : List String) (w : World)
    (hok : ∀ e ∈ newEvents w (searchAllFaces_loop c image faces users w).2,
      e.succeeded = true) :
    resolvedIds (newEvents w (searchAllFaces_loop c image faces users w).2)
      = specResolveFaces c w.stackInfo faces w.history := by
  induction faces generalizing users w with
  | nil => simp [searchAllFaces_loop, newEvents_self, resolvedIds, specResolveFaces]
  | cons face rest ih =>
    cases hSF : c.SearchFaces w.history ⟨w.stackInfo.collectionId, face.Face.FaceId, 90⟩ with
    | error err =>
      exfalso
      rw [loop_searchFaces_error c image face rest users w err hSF] at hok
      have hh : newEvents w (w.record (Event.SearchFaces
          ⟨w.stackInfo.collectionId, face.Face.FaceId, 90⟩ (.error err)))
          = [Event.SearchFaces ⟨w.stackInfo.collectionId, face.Face.FaceId, 90⟩
              (.error err)] := newEvents_of_append rfl
      have := hok _ (by rw [hh]; exact List.mem_singleton_self _)
      simp [Event.succeeded, isOk] at this
    | ok result =>
      cases hFM : result.FaceMatches with
      | nil =>
        rw [loop_no_match c image face rest users w result hSF hFM] at hok ⊢
        have hstep : ((w.record (Event.SearchFaces
            ⟨w.stackInfo.collectionId, face.Face.FaceId, 90⟩ (.ok result))).logPrintf
            ("No match found for face " ++ face.Face.FaceId ++ " (image: " ++ image ++ ")")).history
            = w.history ++ [Event.SearchFaces
                ⟨w.stackInfo.collectionId, face.Face.FaceId, 90⟩ (.ok result)] := rfl
        rw [newEvents_trans hstep (searchAllFaces_loop_history c image rest users _)] at hok ⊢
        have := ih users _ (fun e he => hok e (List.mem_append_right _ he))
        rw [resolvedIds_append, this]
        simp [resolvedIds, resolvedId, specResolveFaces, hSF, hFM, World.record,
          World.logPrintf]
      | cons faceMatch tl =>
        cases hSU : c.SearchUsers
            (w.history ++ [Event.SearchFaces ⟨w.stackInfo.collectionId, face.Face.FaceId, 90⟩
              (.ok result)])
            ⟨w.stackInfo.collectionId, faceMatch.Face.FaceId, 75⟩ with
        | error err =>
          exfalso
          rw [loop_searchUsers_error c image face rest users w result faceMatch tl err
            hSF hFM hSU] at hok
          have hh : newEvents w ((w.record (Event.SearchFaces
              ⟨w.stackInfo.collectionId, face.Face.FaceId, 90⟩ (.ok result))).record
              (Event.SearchUsers ⟨w.stackInfo.collectionId, faceMatch.Face.FaceId, 75⟩
                (.error err)))
              = [Event.SearchFaces ⟨w.stackInfo.collectionId, face.Face.FaceId, 90⟩
                  (.ok result),
                Event.SearchUsers ⟨w.stackInfo.collectionId, faceMatch.Face.FaceId, 75⟩
                  (.error err)] := newEvents_of_append (by simp [World.record])
          have := hok (Event.SearchUsers
            ⟨w.stackInfo.collectionId, faceMatch.Face.FaceId, 75⟩ (.error err))
            (by rw [hh]; simp)
          simp [Event.succeeded, isOk] at this
        | ok out =>
          have hstep : ∀ w2 : World, w2.history = ((w.record (Event.SearchFaces
              ⟨w.stackInfo.collectionId, face.Face.FaceId, 90⟩ (.ok result))).record
              (Event.SearchUsers ⟨w.stackInfo.collectionId, faceMatch.Face.FaceId, 75⟩
                (.ok out))).history →
              w2.history = w.history ++ [Event.SearchFaces
                  ⟨w.stackInfo.collectionId, face.Face.FaceId, 90⟩ (.ok result),
                Event.SearchUsers ⟨w.stackInfo.collectionId, faceMatch.Face.FaceId, 75⟩
                  (.ok out)] := by
            intro w2 h2
            rw [h2]
            simp [World.record]
          cases hUM : out.UserMatches with
          | nil =>
            rw [loop_no_user c image face rest users w result faceMatch tl out
              hSF hFM hSU hUM] at hok ⊢
            rw [newEvents_trans (hstep
                (((w.record (Event.SearchFaces
                  ⟨w.stackInfo.collectionId, face.Face.FaceId, 90⟩ (.ok result))).record
                  (Event.SearchUsers ⟨w.stackInfo.collectionId, faceMatch.Face.FaceId, 75⟩
                    (.ok out))).logPrintf
                  ("No user found for faceId " ++ face.Face.FaceId ++
                    " (image: " ++ image ++ ")")) rfl)
              (searchAllFaces_loop_history c image rest users _)] at hok ⊢
            have := ih users _ (fun e he => hok e (List.mem_append_right _ he))
            rw [resolvedIds_append, this]
            simp [resolvedIds, resolvedId, specResolveFaces, hSF, hFM, hSU, hUM, World.record,
              World.logPrintf]
          | cons userMatch tlU =>
            rw [loop_user c image face rest users w result faceMatch tl out userMatch tlU
              hSF hFM hSU hUM] at hok ⊢
            rw [newEvents_trans (hstep
                ((w.record (Event.SearchFaces
                  ⟨w.stackInfo.collectionId, face.Face.FaceId, 90⟩ (.ok result))).record
                  (Event.SearchUsers ⟨w.stackInfo.collectionId, faceMatch.Face.FaceId, 75⟩
                    (.ok out))) rfl)
              (searchAllFaces_loop_history c image rest _ _)] at hok ⊢
            have := ih _ _ (fun e he => hok e (List.mem_append_right _ he))
            rw [resolvedIds_append, this]
            simp [resolvedIds, resolvedId, specResolveFaces, hSF, hFM, hSU, hUM, World.record]

/-! ### `searchAllFaces` -/

/-- What one call of `searchAllFaces` does: one `IndexFaces` request for the
image with cap 10, then searches only. -/
theorem searchAllFaces_spec (c : RekognitionClient) (image : String) (w : World) :
    ∃ rest : List Event,
      (searchAllFaces c image w).2.history = w.history ++
        Event.IndexFaces ⟨w.stackInfo.collectionId, w.stackInfo.bucketName, image, 10⟩
          (c.IndexFaces w.history
            ⟨w.stackInfo.collectionId, w.stackInfo.bucketName, image, 10⟩) :: rest ∧
      (∀ e ∈ rest, e.isSearch = true) ∧
      (searchAllFaces c image w).2.existingUserIds = w.existingUserIds ∧
      (∀ out, c.IndexFaces w.history
          ⟨w.stackInfo.collectionId, w.stackInfo.bucketName, image, 10⟩ = .ok out →
        out.FaceRecords = [] → rest = [] ∧ (searchAllFaces c image w).1 = ([], none)) ∧
      ((∀ e ∈ rest, e.succeeded = true) →
        isOk (c.IndexFaces w.history
          ⟨w.stackInfo.collectionId, w.stackInfo.bucketName, image, 10⟩) = true →
        (searchAllFaces c image w).1 = (firstOccurrences (resolvedIds rest), none)) := by
  cases hIF : c.IndexFaces w.history
      ⟨w.stackInfo.collectionId, w.stackInfo.bucketName, image, 10⟩ with
  | error err =>
    refine ⟨[], ?_, by simp, ?_, by simp, ?_⟩
    · simp [searchAllFaces, indexFacesByFilename, hIF, World.record]
    · simp [searchAllFaces, indexFacesByFilename, hIF, World.record]
    · intro _ h
      simp [isOk] at h
  | ok faces =>
    have hrun : searchAllFaces c image w
        = searchAllFaces_loop c image faces.FaceRecords []
            (if faces.FaceRecords.length < 1 then
              (w.record (Event.IndexFaces
                ⟨w.stackInfo.collectionId, w.stackInfo.bucketName, image, 10⟩
                (.ok faces))).logPrintf ("No face found on image " ++ image)
             else w.record (Event.IndexFaces
                ⟨w.stackInfo.collectionId, w.stackInfo.bucketName, image, 10⟩ (.ok faces))) := by
      simp [searchAllFaces, indexFacesByFilename, hIF]
    obtain ⟨new, h1, h2, h3, h5, h4⟩ := searchAllFaces_loop_spec c image faces.FaceRecords []
      (if faces.FaceRecords.length < 1 then
        (w.record (Event.IndexFaces
          ⟨w.stackInfo.collectionId, w.stackInfo.bucketName, image, 10⟩
          (.ok faces))).logPrintf ("No face found on image " ++ image)
       else w.record (Event.IndexFaces
          ⟨w.stackInfo.collectionId, w.stackInfo.bucketName, image, 10⟩ (.ok faces)))
    rw [hrun]
    refine ⟨new, ?_, h2, ?_, ?_, ?_⟩
    · rw [h1]
      split <;> simp [World.record, World.logPrintf]
    · rw [h3]
      split <;> simp [World.record, World.logPrintf]
    · intro out hout hnil
      injection hout with hout
      subst hout
      have hn := h5 hnil
      subst hn
      refine ⟨rfl, ?_⟩
      simp [hnil, searchAllFaces_loop]
    · intro hs _
      rw [h4 hs, foldl_accumulate_eq]
      simp

/-- After a successful `IndexFaces` call, `searchAllFaces` is the face loop
over the face records of the response, started with the empty list from a state
that differs by that one call (and a log line when there is no face). -/
theorem searchAllFaces_ok_run (c : RekognitionClient) (image : String) (w : World)
    (detected : IndexFacesOutput)
    (hIF : c.IndexFaces w.history
      ⟨w.stackInfo.collectionId, w.stackInfo.bucketName, image, 10⟩ = .ok detected) :
    ∃ w0 : World,
      w0.history = w.history ++ [Event.IndexFaces
        ⟨w.stackInfo.collectionId, w.stackInfo.bucketName, image, 10⟩ (.ok detected)] ∧
      w0.stackInfo = w.stackInfo ∧
      searchAllFaces c image w = searchAllFaces_loop c image detected.FaceRecords [] w0 := by
  refine ⟨if detected.FaceRecords.length < 1 then
      (w.record (Event.IndexFaces
        ⟨w.stackInfo.collectionId, w.stackInfo.bucketName, image, 10⟩
        (.ok detected))).logPrintf ("No face found on image " ++ image)
     else w.record (Event.IndexFaces
        ⟨w.stackInfo.collectionId, w.stackInfo.bucketName, image, 10⟩ (.ok detected)),
    ?_, ?_, ?_⟩
  · split <;> simp [World.record, World.logPrintf]
  · split <;> simp [World.record, World.logPrintf]
  · simp [searchAllFaces, indexFacesByFilename, hIF]

/-- C3: when every service call made for an input image succeeds, the
`IndexFaces` call returned the detected faces, and the list returned by
`searchAllFaces` is the sequence `r` of identity ids resolved for those faces
in detection order, as the specification words the resolution
(`specResolveFaces`: one entry per face with a face match and an identity
match, the first identity of the first face match), with every occurrence
after the first removed.  It is returned without error and holds no id twice;
`r` is also the sequence of first identities the identity searches of the run
returned. -/
theorem searchAllFaces_first_occurrences (c : RekognitionClient) (image : String) (w : World)
    (hok : ∀ e ∈ newEvents w (searchAllFaces c image w).2, e.succeeded = true) :
    ∃ detected : IndexFacesOutput,
      c.IndexFaces w.history
        ⟨w.stackInfo.collectionId, w.stackInfo.bucketName, image, 10⟩ = .ok detected ∧
      (searchAllFaces c image w).1
        = (firstOccurrences (specResolveFaces c w.stackInfo detected.FaceRecords
            (w.history ++ [Event.IndexFaces
              ⟨w.stackInfo.collectionId, w.stackInfo.bucketName, image, 10⟩ (.ok detected)])),
          none) ∧
      resolvedIds (newEvents w (searchAllFaces c image w).2)
        = specResolveFaces c w.stackInfo detected.FaceRecords
            (w.history ++ [Event.IndexFaces
              ⟨w.stackInfo.collectionId, w.stackInfo.bucketName, image, 10⟩ (.ok detected)]) ∧
      (searchAllFaces c image w).1.1.Nodup := by
  obtain ⟨rest, h1, _, _, _, h5⟩ := searchAllFaces_spec c image w
  have hnew := newEvents_of_append h1
  have hres := h5 (fun e he => hok e (by rw [hnew]; exact List.mem_cons_of_mem _ he))
    (by simpa [Event.succeeded] using hok _ (by rw [hnew]; exact List.mem_cons_self _ _))
  have hids : resolvedIds (newEvents w (searchAllFaces c image w).2) = resolvedIds rest := by
    rw [hnew]
    simp [resolvedIds, List.filterMap_cons, resolvedId]
  cases hIF : c.IndexFaces w.history
      ⟨w.stackInfo.collectionId, w.stackInfo.bucketName, image, 10⟩ with
  | error err =>
    exfalso
    have := hok _ (by rw [hnew]; exact List.mem_cons_self _ _)
    simp [Event.succeeded, hIF, isOk] at this
  | ok detected =>
    obtain ⟨w0, hh, hsi, hrun⟩ := searchAllFaces_ok_run c image w detected hIF
    have htr : newEvents w (searchAllFaces_loop c image detected.FaceRecords [] w0).2
        = [Event.IndexFaces ⟨w.stackInfo.collectionId, w.stackInfo.bucketName, image, 10⟩
            (.ok detected)]
          ++ newEvents w0 (searchAllFaces_loop c image detected.FaceRecords [] w0).2 :=
      newEvents_trans hh (searchAllFaces_loop_history c image detected.FaceRecords [] w0)
    have hspec := searchAllFaces_loop_resolves c image detected.FaceRecords [] w0 (by
      intro e he
      refine hok e ?_
      rw [hrun, htr]
      exact List.mem_append_right _ he)
    rw [hsi, hh] at hspec
    have hall : resolvedIds (newEvents w (searchAllFaces c image w).2)
        = specResolveFaces c w.stackInfo detected.FaceRecords
            (w.history ++ [Event.IndexFaces
              ⟨w.stackInfo.collectionId, w.stackInfo.bucketName, image, 10⟩
              (.ok detected)]) := by
      rw [hrun, htr, resolvedIds_append, hspec]
      simp [resolvedIds, resolvedId]
    refine ⟨detected, rfl, ?_, hall, ?_⟩
    · rw [hres, ← hids, hall]
    · rw [hres]
      exact firstOccurrences_nodup _

/-- Witness of C3: on the group picture every call succeeds, the faces
resolve in detection order to alice, bob, alice, carol and the result is alice,
bob, carol. -/
theorem searchAllFaces_first_occurrences_witness :
    (∀ e ∈ newEvents startWorld (searchAllFaces groupService "input/group.jpg" startWorld).2,
        e.succeeded = true) ∧
      specResolveFaces groupService startWorld.stackInfo
        [⟨⟨"d1"⟩⟩, ⟨⟨"d2"⟩⟩, ⟨⟨"d3"⟩⟩, ⟨⟨"d4"⟩⟩]
        (startWorld.history ++ [Event.IndexFaces
          ⟨startWorld.stackInfo.collectionId, startWorld.stackInfo.bucketName,
            "input/group.jpg", 10⟩
          (.ok ⟨[⟨⟨"d1"⟩⟩, ⟨⟨"d2"⟩⟩, ⟨⟨"d3"⟩⟩, ⟨⟨"d4"⟩⟩]⟩)])
        = ["alice", "bob", "alice", "carol"] ∧
      (searchAllFaces groupService "input/group.jpg" startWorld).1
        = (["alice", "bob", "carol"], none) ∧
      ∃ detected : IndexFacesOutput,
        groupService.IndexFaces startWorld.history
          ⟨startWorld.stackInfo.collectionId, startWorld.stackInfo.bucketName,
            "input/group.jpg", 10⟩ = .ok detected ∧
        (searchAllFaces groupService "input/group.jpg" startWorld).1
          = (firstOccurrences (specResolveFaces groupService startWorld.stackInfo
              detected.FaceRecords
              (startWorld.history ++ [Event.IndexFaces
                ⟨startWorld.stackInfo.collectionId, startWorld.stackInfo.bucketName,
                  "input/group.jpg", 10⟩ (.ok detected)])),
            none) ∧
        resolvedIds (newEvents startWorld
            (searchAllFaces groupService "input/group.jpg" startWorld).2)
          = specResolveFaces groupService startWorld.stackInfo detected.FaceRecords
              (startWorld.history ++ [Event.IndexFaces
                ⟨startWorld.stackInfo.collectionId, startWorld.stackInfo.bucketName,
                  "input/group.jpg", 10⟩ (.ok detected)]) ∧
        (searchAllFaces groupService "input/group.jpg" startWorld).1.1.Nodup :=
  ⟨by decide, by decide, by decide,
    searchAllFaces_first_occurrences groupService "input/group.jpg" startWorld (by decide)⟩

/-- C10: when the `IndexFaces` call for an input image succeeds with zero face
records, `searchAllFaces` returns the empty list and no error, and issues no
face search and no identity search. -/
theorem searchAllFaces_no_face (c : RekognitionClient) (image : String) (w : World)
    (out : IndexFacesOutput)
    (hout : c.IndexFaces w.history
      ⟨w.stackInfo.collectionId, w.stackInfo.bucketName, image, 10⟩ = .ok out)
    (hnil : out.FaceRecords = []) :
    (searchAllFaces c image w).1 = ([], none) ∧
      ∀ e ∈ newEvents w (searchAllFaces c image w).2, e.isSearch = false := by
  obtain ⟨rest, h1, _, _, h4, _⟩ := searchAllFaces_spec c image w
  obtain ⟨hrest, hres⟩ := h4 out hout hnil
  subst hrest
  refine ⟨hres, ?_⟩
  rw [newEvents_of_append h1]
  intro e he
  simp only [List.mem_singleton] at he
  subst he
  rfl

/-- Witness of C10: on the empty collection the image has no face; the result
is the empty list without error and no search is issued. -/
theorem searchAllFaces_no_face_witness :
    (emptyService.IndexFaces startWorld.history
        ⟨startWorld.stackInfo.collectionId, startWorld.stackInfo.bucketName, "input/a.jpg", 10⟩
        = .ok ⟨[]⟩ ∧ (⟨[]⟩ : IndexFacesOutput).FaceRecords = []) ∧
      ((searchAllFaces emptyService "input/a.jpg" startWorld).1 = ([], none) ∧
        ∀ e ∈ newEvents startWorld (searchAllFaces emptyService "input/a.jpg" startWorld).2,
          e.isSearch = false) :=
  ⟨⟨rfl, rfl⟩, searchAllFaces_no_face emptyService "input/a.jpg" startWorld ⟨[]⟩ rfl rfl⟩

/-- C7, as stated, fails: resolving the group picture issues an `IndexFaces`
request, which registers the four faces it detects in the collection. -/
theorem searchAllFaces_changes_collection :
    (¬ ∀ e ∈ newEvents startWorld
        (searchAllFaces groupService "input/group.jpg" startWorld).2,
        e.changesCollection = false) ∧
      (((newEvents startWorld
        (searchAllFaces groupService "input/group.jpg" startWorld).2).head?.bind
          Event.indexedFaces).getD []).map (fun r => r.Face.FaceId)
        = ["d1", "d2", "d3", "d4"] := by
  decide

/-- C7, amended: `searchAllFaces` issues exactly one `IndexFaces` request, for
the input image with cap 10, as its first call; every later call is a face
search or an identity search, which only read; no identity is created, no face
is associated to an identity, and the identity cache is left as it was. -/
theorem searchAllFaces_calls (c : RekognitionClient) (image : String) (w : World) :
    ∃ rest : List Event,
      newEvents w (searchAllFaces c image w).2 =
        Event.IndexFaces ⟨w.stackInfo.collectionId, w.stackInfo.bucketName, image, 10⟩
          (c.IndexFaces w.history
            ⟨w.stackInfo.collectionId, w.stackInfo.bucketName, image, 10⟩) :: rest ∧
      (∀ e ∈ rest, e.isSearch = true ∧ e.changesCollection = false) ∧
      (∀ e ∈ newEvents w (searchAllFaces c image w).2,
        e.isCreateUser = false ∧ e.isAssociateFaces = false) ∧
      (searchAllFaces c image w).2.existingUserIds = w.existingUserIds := by
  obtain ⟨rest, h1, h2, h3, _, _⟩ := searchAllFaces_spec c image w
  have hsearch : ∀ e : Event, e.isSearch = true →
      e.changesCollection = false ∧ e.isCreateUser = false ∧ e.isAssociateFaces = false := by
    intro e he
    cases e <;> simp_all [Event.isSearch, Event.changesCollection, Event.isCreateUser,
      Event.isAssociateFaces]
  refine ⟨rest, newEvents_of_append h1, fun e he => ⟨h2 e he, (hsearch e (h2 e he)).1⟩, ?_, h3⟩
  rw [newEvents_of_append h1]
  intro e he
  rcases List.mem_cons.mp he with he | he
  · subst he
    exact ⟨rfl, rfl⟩
  · exact (hsearch e (h2 e he)).2

/-! ### `createUser` -/

theorem createUser_listUsers_error (c : RekognitionClient) (u : String) (w : World) (err : Error)
    (hnil : w.existingUserIds = none)
    (hl : c.ListUsers w.history ⟨w.stackInfo.collectionId⟩ = .error err) :
    createUser c u w = (some ("error requesting existing users " ++ err),
      w.record (Event.ListUsers ⟨w.stackInfo.collectionId⟩ (.error err))) := by
  simp [createUser, hnil, hl]

/-- With a `nil` cache and a successful listing, `createUser` goes on exactly
as it does from the state in which the cache holds the ids of the listing. -/
theorem createUser_fill (c : RekognitionClient) (u : String) (w : World)
    (listing : ListUsersOutput) (hnil : w.existingUserIds = none)
    (hl : c.ListUsers w.history ⟨w.stackInfo.collectionId⟩ = .ok listing) :
    createUser c u w = createUser c u
      { w.record (Event.ListUsers ⟨w.stackInfo.collectionId⟩ (.ok listing)) with
        existingUserIds := some (listing.Users.map (fun user => user.UserId)) } := by
  simp [createUser, hnil, hl, World.record]

theorem createUser_cached_skip (c : RekognitionClient) (u : String) (w : World)
    (ids : List String) (hc : w.existingUserIds = some ids) (hu : u ∈ ids) :
    createUser c u w = (none, w.logPrintf ("User " ++ u ++ " already exists")) := by
  simp [createUser, hc, hu]

theorem createUser_cached_error (c : RekognitionClient) (u : String) (w : World)
    (ids : List String) (err : Error) (hc : w.existingUserIds = some ids) (hu : u ∉ ids)
    (hr : c.CreateUser w.history ⟨w.stackInfo.collectionId, u⟩ = .error err) :
    createUser c u w = (some ("error creating user " ++ err),
      w.record (Event.CreateUser ⟨w.stackInfo.collectionId, u⟩ (.error err))) := by
  simp [createUser, hc, hu, hr]

theorem createUser_cached_ok (c : RekognitionClient) (u : String) (w : World)
    (ids : List String) (hc : w.existingUserIds = some ids) (hu : u ∉ ids)
    (hr : c.CreateUser w.history ⟨w.stackInfo.collectionId, u⟩ = .ok ()) :
    createUser c u w = (none,
      (w.record (Event.CreateUser ⟨w.stackInfo.collectionId, u⟩ (.ok ()))).logPrintf
        ("User " ++ u ++ " created")) := by
  simp [createUser, hc, hu, hr]

/-- One call of `createUser` from a filled cache: no listing is requested, the
cache and `stackInfo` stay as they are; an id in the cache is skipped with a
log line, an id outside it costs one `CreateUser` request. -/
theorem createUser_cached_spec (c : RekognitionClient) (u : String) (w : World)
    (ids : List String) (hc : w.existingUserIds = some ids) :
    ∃ (new : List Event) (lines : List String),
      (createUser c u w).2.history = w.history ++ new ∧
      (createUser c u w).2.logs = w.logs ++ lines ∧
      (createUser c u w).2.existingUserIds = some ids ∧
      (createUser c u w).2.stackInfo = w.stackInfo ∧
      (∀ e ∈ new, e.isListUsers = false) ∧
      (u ∈ ids → new = [] ∧ lines = ["User " ++ u ++ " already exists"]) ∧
      (u ∉ ids →
        new = [Event.CreateUser ⟨w.stackInfo.collectionId, u⟩
          (c.CreateUser w.history ⟨w.stackInfo.collectionId, u⟩)] ∧
        (isOk (c.CreateUser w.history ⟨w.stackInfo.collectionId, u⟩) = true →
          lines = ["User " ++ u ++ " created"])) := by
  by_cases hu : u ∈ ids
  · rw [createUser_cached_skip c u w ids hc hu]
    exact ⟨[], ["User " ++ u ++ " already exists"], by simp [World.logPrintf],
      by simp [World.logPrintf], by simpa [World.logPrintf] using hc, rfl, by simp,
      fun _ => ⟨rfl, rfl⟩, fun h => absurd hu h⟩
  · cases hr : c.CreateUser w.history ⟨w.stackInfo.collectionId, u⟩ with
    | error err =>
      rw [createUser_cached_error c u w ids err hc hu hr]
      exact ⟨[Event.CreateUser ⟨w.stackInfo.collectionId, u⟩ (.error err)], [],
        by simp [World.record], by simp [World.record],
        by simpa [World.record] using hc, rfl, by simp [Event.isListUsers],
        fun h => absurd h hu, fun _ => ⟨rfl, by simp [isOk]⟩⟩
    | ok v =>
      cases v
      rw [createUser_cached_ok c u w ids hc hu hr]
      exact ⟨[Event.CreateUser ⟨w.stackInfo.collectionId, u⟩ (.ok ())],
        ["User " ++ u ++ " created"],
        by simp [World.record, World.logPrintf], by simp [World.record, World.logPrintf],
        by simpa [World.record, World.logPrintf] using hc, rfl, by simp [Event.isListUsers],
        fun h => absurd h hu, fun _ => ⟨rfl, fun _ => rfl⟩⟩

/-- The history only grows in a call of `createUser`. -/
theorem createUser_history (c : RekognitionClient) (u : String) (w : World) :
    ∃ new : List Event, (createUser c u w).2.history = w.history ++ new := by
  cases hc : w.existingUserIds with
  | some ids =>
    obtain ⟨new, _, h, _⟩ := createUser_cached_spec c u w ids hc
    exact ⟨new, h⟩
  | none =>
    cases hl : c.ListUsers w.history ⟨w.stackInfo.collectionId⟩ with
    | error err =>
      rw [createUser_listUsers_error c u w err hc hl]
      exact ⟨_, rfl⟩
    | ok listing =>
      rw [createUser_fill c u w listing hc hl]
      obtain ⟨new, _, h, _⟩ := createUser_cached_spec c u
        { w.record (Event.ListUsers ⟨w.stackInfo.collectionId⟩ (.ok listing)) with
          existingUserIds := some (listing.Users.map (fun user => user.UserId)) }
        (listing.Users.map (fun user => user.UserId)) rfl
      exact ⟨Event.ListUsers ⟨w.stackInfo.collectionId⟩ (.ok listing) :: new, by
        rw [h]; simp [World.record]⟩

theorem created_ne_exists (u : String) :
    "User " ++ u ++ " created" ≠ "User " ++ u ++ " already exists" := by
  intro h
  have h2 := congrArg String.data h
  simp only [String.data_append, List.append_cancel_left_eq] at h2
  exact absurd h2 (by decide)

theorem createUserSeq_cons_snd (c : RekognitionClient) (u : String) (us : List String)
    (w : World) :
    (createUserSeq c (u :: us) w).2 = (createUserSeq c us (createUser c u w).2).2 := rfl

theorem createUserSeq_history (c : RekognitionClient) (us : List String) (w : World) :
    ∃ new : List Event, (createUserSeq c us w).2.history = w.history ++ new := by
  induction us generalizing w with
  | nil => exact ⟨[], by simp [createUserSeq]⟩
  | cons u us ih =>
    obtain ⟨n1, h1⟩ := createUser_history c u w
    obtain ⟨n2, h2⟩ := ih (createUser c u w).2
    exact ⟨n1 ++ n2, by rw [createUserSeq_cons_snd, h2, h1, List.append_assoc]⟩

/-- From a filled cache no call of a sequence requests the listing, and the
cache is the same after the sequence. -/
theorem createUserSeq_cached (c : RekognitionClient) (us : List String) (w : World)
    (ids : List String) (hc : w.existingUserIds = some ids) :
    ∃ new : List Event,
      (createUserSeq c us w).2.history = w.history ++ new ∧
      (∀ e ∈ new, e.isListUsers = false) ∧
      (createUserSeq c us w).2.existingUserIds = some ids := by
  induction us generalizing w with
  | nil => exact ⟨[], by simp [createUserSeq], by simp, by simpa [createUserSeq] using hc⟩
  | cons u us ih =>
    obtain ⟨n1, _, h1, _, h3, _, h5, _⟩ := createUser_cached_spec c u w ids hc
    obtain ⟨n2, g1, g2, g3⟩ := ih (createUser c u w).2 h3
    refine ⟨n1 ++ n2, by rw [createUserSeq_cons_snd, g1, h1, List.append_assoc], ?_, ?_⟩
    · intro e he
      rcases List.mem_append.mp he with he | he
      · exact h5 e he
      · exact g2 e he
    · rw [createUserSeq_cons_snd]
      exact g3

/-- C9: from an unpopulated cache, in a sequence of one or more `createUser`
calls whose service requests all succeed, the listing is requested exactly
once, as the first request of the first call (also when it is empty); the
cache after the first call holds the ids of that listing, and it holds the
same ids after the whole sequence. -/
theorem createUser_lists_once (c : RekognitionClient) (u : String) (us : List String)
    (w : World) (hnil : w.existingUserIds = none)
    (hok : ∀ e ∈ newEvents w (createUserSeq c (u :: us) w).2, e.succeeded = true) :
    ∃ (listing : ListUsersOutput) (first rest : List Event),
      c.ListUsers w.history ⟨w.stackInfo.collectionId⟩ = .ok listing ∧
      newEvents w (createUser c u w).2
        = Event.ListUsers ⟨w.stackInfo.collectionId⟩ (.ok listing) :: first ∧
      newEvents w (createUserSeq c (u :: us) w).2
        = Event.ListUsers ⟨w.stackInfo.collectionId⟩ (.ok listing) :: rest ∧
      (∀ e ∈ rest, e.isListUsers = false) ∧
      (createUser c u w).2.existingUserIds
        = some (listing.Users.map (fun user => user.UserId)) ∧
      (createUserSeq c (u :: us) w).2.existingUserIds
        = some (listing.Users.map (fun user => user.UserId)) := by
  cases hl : c.ListUsers w.history ⟨w.stackInfo.collectionId⟩ with
  | error err =>
    exfalso
    obtain ⟨n2, h2⟩ := createUserSeq_history c us (createUser c u w).2
    have hh : (createUserSeq c (u :: us) w).2.history
        = w.history ++ (Event.ListUsers ⟨w.stackInfo.collectionId⟩ (.error err) :: n2) := by
      rw [createUserSeq_cons_snd, h2, createUser_listUsers_error c u w err hnil hl]
      simp [World.record]
    rw [newEvents_of_append hh] at hok
    have := hok _ (List.mem_cons_self _ _)
    simp [Event.succeeded, isOk] at this
  | ok listing =>
    have hfill := createUser_fill c u w listing hnil hl
    obtain ⟨n1, _, h1, _, h3, _, h5, _⟩ := createUser_cached_spec c u
      { w.record (Event.ListUsers ⟨w.stackInfo.collectionId⟩ (.ok listing)) with
        existingUserIds := some (listing.Users.map (fun user => user.UserId)) }
      (listing.Users.map (fun user => user.UserId)) rfl
    rw [← hfill] at h1 h3
    obtain ⟨n2, g1, g2, g3⟩ := createUserSeq_cached c us (createUser c u w).2 _ h3
    have hfirst : (createUser c u w).2.history
        = w.history ++ (Event.ListUsers ⟨w.stackInfo.collectionId⟩ (.ok listing) :: n1) := by
      rw [h1]; simp [World.record]
    have hall : (createUserSeq c (u :: us) w).2.history
        = w.history ++ (Event.ListUsers ⟨w.stackInfo.collectionId⟩ (.ok listing)
            :: (n1 ++ n2)) := by
      rw [createUserSeq_cons_snd, g1, hfirst]; simp
    refine ⟨listing, n1, n1 ++ n2, rfl, newEvents_of_append hfirst, newEvents_of_append hall,
      ?_, h3, ?_⟩
    · intro e he
      rcases List.mem_append.mp he with he | he
      · exact h5 e he
      · exact g2 e he
    · rw [createUserSeq_cons_snd]
      exact g3

/-- Witness of C9: three calls on an empty collection; the listing is empty,
it is requested once, and the cache is the empty non-`nil` list afterwards. -/
theorem createUser_lists_once_witness :
    (startWorld.existingUserIds = none ∧
      ∀ e ∈ newEvents startWorld
          (createUserSeq emptyService ("alice" :: ["bob", "alice"]) startWorld).2,
        e.succeeded = true) ∧
      ∃ (listing : ListUsersOutput) (first rest : List Event),
        emptyService.ListUsers startWorld.history ⟨startWorld.stackInfo.collectionId⟩
          = .ok listing ∧
        newEvents startWorld (createUser emptyService "alice" startWorld).2
          = Event.ListUsers ⟨startWorld.stackInfo.collectionId⟩ (.ok listing) :: first ∧
        newEvents startWorld
            (createUserSeq emptyService ("alice" :: ["bob", "alice"]) startWorld).2
          = Event.ListUsers ⟨startWorld.stackInfo.collectionId⟩ (.ok listing) :: rest ∧
        (∀ e ∈ rest, e.isListUsers = false) ∧
        (createUser emptyService "alice" startWorld).2.existingUserIds
          = some (listing.Users.map (fun user => user.UserId)) ∧
        (createUserSeq emptyService ("alice" :: ["bob", "alice"]) startWorld).2.existingUserIds
          = some (listing.Users.map (fun user => user.UserId)) :=
  ⟨⟨rfl, by decide⟩,
    createUser_lists_once emptyService "alice" ["bob", "alice"] startWorld rfl (by decide)⟩

/-- C5, as stated, fails in both cases.  When the id is not in the listing,
two calls that both succeed issue two `CreateUser` requests for it and log no
skip; when the id is in the listing they issue none and log two skips. -/
theorem createUser_twice_not_once :
    ((∀ e ∈ newEvents startWorld
          (createUser emptyService "alice" (createUser emptyService "alice" startWorld).2).2,
        e.succeeded = true) ∧
      (newEvents startWorld
          (createUser emptyService "alice"
            (createUser emptyService "alice" startWorld).2).2).countP
        (Event.createsUser "alice") = 2 ∧
      (newLogs startWorld
          (createUser emptyService "alice"
            (createUser emptyService "alice" startWorld).2).2).count
        "User alice already exists" = 0) ∧
    ((∀ e ∈ newEvents startWorld
          (createUser aliceService "alice" (createUser aliceService "alice" startWorld).2).2,
        e.succeeded = true) ∧
      (newEvents startWorld
          (createUser aliceService "alice"
            (createUser aliceService "alice" startWorld).2).2).countP
        (Event.createsUser "alice") = 0 ∧
      (newLogs startWorld
          (createUser aliceService "alice"
            (createUser aliceService "alice" startWorld).2).2).count
        "User alice already exists" = 2) := by
  decide

/-- C5, amended: from an unpopulated cache, two calls of `createUser` with the
same id whose service requests all succeed request the listing once.  When
the id is in that listing both calls skip: no `CreateUser` request and two
"already exists" lines.  When it is not, each call issues a `CreateUser`
request for it, two in total, and no "already exists" line is logged: a
created id is not added to the cache. -/
theorem createUser_twice (c : RekognitionClient) (u : String) (w : World)
    (listing : ListUsersOutput) (hnil : w.existingUserIds = none)
    (hlist : c.ListUsers w.history ⟨w.stackInfo.collectionId⟩ = .ok listing)
    (hok : ∀ e ∈ newEvents w (createUser c u (createUser c u w).2).2, e.succeeded = true) :
    (newEvents w (createUser c u (createUser c u w).2).2).countP Event.isListUsers = 1 ∧
      (newEvents w (createUser c u (createUser c u w).2).2).countP (Event.createsUser u)
        = (if u ∈ listing.Users.map (fun user => user.UserId) then 0 else 2) ∧
      (newLogs w (createUser c u (createUser c u w).2).2).count
          ("User " ++ u ++ " already exists")
        = (if u ∈ listing.Users.map (fun user => user.UserId) then 2 else 0) := by
  have hfill := createUser_fill c u w listing hnil hlist
  obtain ⟨n1, l1, a1, a2, a3, a4, a5, a6, a7⟩ := createUser_cached_spec c u
    { w.record (Event.ListUsers ⟨w.stackInfo.collectionId⟩ (.ok listing)) with
      existingUserIds := some (listing.Users.map (fun user => user.UserId)) }
    (listing.Users.map (fun user => user.UserId)) rfl
  rw [← hfill] at a1 a2 a3 a4
  obtain ⟨n2, l2, b1, b2, _, _, b5, b6, b7⟩ := createUser_cached_spec c u
    (createUser c u w).2 (listing.Users.map (fun user => user.UserId)) a3
  have hhist : (createUser c u (createUser c u w).2).2.history
      = w.history ++ (Event.ListUsers ⟨w.stackInfo.collectionId⟩ (.ok listing)
          :: (n1 ++ n2)) := by
    rw [b1, a1]; simp [World.record]
  have hlogs : (createUser c u (createUser c u w).2).2.logs = w.logs ++ (l1 ++ l2) := by
    rw [b2, a2]; simp [World.record]
  rw [newEvents_of_append hhist] at hok ⊢
  rw [newLogs_of_append hlogs]
  have hcount : ((Event.ListUsers ⟨w.stackInfo.collectionId⟩ (.ok listing)
      :: (n1 ++ n2)).countP Event.isListUsers) = 1 := by
    have hz : (n1 ++ n2).countP Event.isListUsers = 0 := by
      rw [List.countP_eq_zero]
      intro e he
      rcases List.mem_append.mp he with he | he
      · simp [a5 e he]
      · simp [b5 e he]
    simp [List.countP_cons, hz, Event.isListUsers]
  refine ⟨hcount, ?_⟩
  by_cases hu : u ∈ listing.Users.map (fun user => user.UserId)
  · obtain ⟨e1, e2⟩ := a6 hu
    obtain ⟨f1, f2⟩ := b6 hu
    subst e1 e2 f1 f2
    simp only [hu, if_true]
    refine ⟨?_, ?_⟩
    · simp [List.countP_cons, Event.createsUser]
    · simp
  · obtain ⟨e1, e2⟩ := a7 hu
    obtain ⟨f1, f2⟩ := b7 hu
    subst e1 f1
    have s1 := hok _ (List.mem_cons_of_mem _ (List.mem_append_left _ (List.mem_singleton_self _)))
    have s2 := hok _ (List.mem_cons_of_mem _ (List.mem_append_right _ (List.mem_singleton_self _)))
    simp only [Event.succeeded] at s1 s2
    have e2' := e2 s1
    have f2' := f2 s2
    subst e2' f2'
    simp only [hu, if_false]
    refine ⟨?_, ?_⟩
    · simp [List.countP_cons, Event.createsUser]
    · have hne := created_ne_exists u
      simp [List.count_cons, hne]

/-- Witness of C5 (amended): alice is not in the empty listing; two calls
issue two `CreateUser` requests and log no skip. -/
theorem createUser_twice_witness :
    (startWorld.existingUserIds = none ∧
      emptyService.ListUsers startWorld.history ⟨startWorld.stackInfo.collectionId⟩
        = .ok ⟨[]⟩ ∧
      ∀ e ∈ newEvents startWorld
          (createUser emptyService "alice" (createUser emptyService "alice" startWorld).2).2,
        e.succeeded = true) ∧
    ((newEvents startWorld
        (createUser emptyService "alice" (createUser emptyService "alice" startWorld).2).2).countP
        Event.isListUsers = 1 ∧
      (newEvents startWorld
        (createUser emptyService "alice" (createUser emptyService "alice" startWorld).2).2).countP
        (Event.createsUser "alice")
        = (if "alice" ∈ (⟨[]⟩ : ListUsersOutput).Users.map (fun user => user.UserId)
            then 0 else 2) ∧
      (newLogs startWorld
        (createUser emptyService "alice" (createUser emptyService "alice" startWorld).2).2).count
          ("User " ++ "alice" ++ " already exists")
        = (if "alice" ∈ (⟨[]⟩ : ListUsersOutput).Users.map (fun user => user.UserId)
            then 2 else 0)) :=
  ⟨⟨rfl, rfl, by decide⟩,
    createUser_twice emptyService "alice" startWorld ⟨[]⟩ rfl rfl (by decide)⟩

/-! ### The map of faces -/

theorem mapGet_mapSet (m : List (String × List Face)) (k l : String) (v : List Face) :
    mapGet (mapSet m k v) l = if k = l then v else mapGet m l := by
  induction m with
  | nil => simp [mapSet, mapGet]
  | cons e m ih =>
    obtain ⟨k', v'⟩ := e
    by_cases h : k' = k
    · subst h
      by_cases hl : k' = l <;> simp [mapSet, mapGet, hl]
    · by_cases hl : k' = l
      · subst hl
        have : ¬ k = k' := fun hh => h hh.symm
        simp [mapSet, mapGet, h, this]
      · simp [mapSet, mapGet, h, hl, ih]

theorem mem_keys_mapSet (m : List (String × List Face)) (k l : String) (v : List Face) :
    l ∈ (mapSet m k v).map Prod.fst ↔ l = k ∨ l ∈ m.map Prod.fst := by
  induction m with
  | nil => simp [mapSet]
  | cons e m ih =>
    obtain ⟨k', v'⟩ := e
    by_cases h : k' = k
    · subst h
      simp [mapSet]
    · simp only [mapSet, h, if_false, List.map_cons, List.mem_cons, ih]
      tauto

theorem nodup_keys_mapSet (m : List (String × List Face)) (k : String) (v : List Face)
    (h : (m.map Prod.fst).Nodup) : ((mapSet m k v).map Prod.fst).Nodup := by
  induction m with
  | nil => simp [mapSet]
  | cons e m ih =>
    obtain ⟨k', v'⟩ := e
    simp only [List.map_cons, List.nodup_cons] at h
    by_cases hk : k' = k
    · subst hk
      simpa [mapSet] using h
    · simp only [mapSet, hk, if_false, List.map_cons, List.nodup_cons]
      refine ⟨?_, ih h.2⟩
      intro hmem
      rcases (mem_keys_mapSet m k k' v).mp hmem with h1 | h1
      · exact hk h1
      · exact h.1 h1

theorem mapGet_of_mem (m : List (String × List Face)) (h : (m.map Prod.fst).Nodup)
    (k : String) (v : List Face) (hm : (k, v) ∈ m) : mapGet m k = v := by
  induction m with
  | nil => simp at hm
  | cons e m ih =>
    obtain ⟨k', v'⟩ := e
    simp only [List.map_cons, List.nodup_cons] at h
    rcases List.mem_cons.mp hm with hm | hm
    · injection hm with h1 h2
      subst h1 h2
      simp [mapGet]
    · have hne : ¬ k' = k := by
        intro hh
        subst hh
        exact h.1 (List.mem_map.mpr ⟨(k', v), hm, rfl⟩)
      simp [mapGet, hne, ih h.2 hm]

/-! ### The indexing loop of `indexAndAssociateFaces` -/

theorem index_parse_error (c : RekognitionClient) (key : String) (rest : List String)
    (faces : List (String × List Face)) (w : World) (label : String) (err : Error)
    (hp : getUserIdFromFilename key = (label, some err)) :
    indexAndAssociateFaces_index c (key :: rest) faces w
      = (Flow.exit (Outcome.returned (some ("error getting user id from filename " ++ err))),
          w) := by
  simp only [indexAndAssociateFaces_index, hp]

theorem index_call_error (c : RekognitionClient) (key : String) (rest : List String)
    (faces : List (String × List Face)) (w : World) (label : String) (err : Error)
    (hp : getUserIdFromFilename key = (label, none))
    (hi : c.IndexFaces w.history ⟨w.stackInfo.collectionId, w.stackInfo.bucketName, key, 1⟩
      = .error err) :
    indexAndAssociateFaces_index c (key :: rest) faces w
      = (Flow.exit (Outcome.returned (some ("error indexing faces " ++ err))),
          w.record (Event.IndexFaces
            ⟨w.stackInfo.collectionId, w.stackInfo.bucketName, key, 1⟩ (.error err))) := by
  simp only [indexAndAssociateFaces_index, hp, indexFacesByFilename, hi]

theorem index_no_face (c : RekognitionClient) (key : String) (rest : List String)
    (faces : List (String × List Face)) (w : World) (label : String) (out : IndexFacesOutput)
    (hp : getUserIdFromFilename key = (label, none))
    (hi : c.IndexFaces w.history ⟨w.stackInfo.collectionId, w.stackInfo.bucketName, key, 1⟩
      = .ok out)
    (hn : out.FaceRecords = []) :
    indexAndAssociateFaces_index c (key :: rest) faces w
      = (Flow.exit (Outcome.panicked "runtime error: index out of range [0] with length 0"),
          (w.record (Event.IndexFaces
            ⟨w.stackInfo.collectionId, w.stackInfo.bucketName, key, 1⟩ (.ok out))).logPrintf
            ("No face found in image " ++ key)) := by
  simp [indexAndAssociateFaces_index, hp, indexFacesByFilename, hi, hn]

theorem index_face (c : RekognitionClient) (key : String) (rest : List String)
    (faces : List (String × List Face)) (w : World) (label : String) (out : IndexFacesOutput)
    (record : FaceRecord) (more : List FaceRecord)
    (hp : getUserIdFromFilename key = (label, none))
    (hi : c.IndexFaces w.history ⟨w.stackInfo.collectionId, w.stackInfo.bucketName, key, 1⟩
      = .ok out)
    (hn : out.FaceRecords = record :: more) :
    indexAndAssociateFaces_index c (key :: rest) faces w
      = indexAndAssociateFaces_index c rest
          (mapSet faces label (mapGet faces label ++ [record.Face]))
          (if (record :: more).length > 1 then
            (w.record (Event.IndexFaces
              ⟨w.stackInfo.collectionId, w.stackInfo.bucketName, key, 1⟩ (.ok out))).logPrintf
              ("More than one face found in image " ++ key)
           else w.record (Event.IndexFaces
              ⟨w.stackInfo.collectionId, w.stackInfo.bucketName, key, 1⟩ (.ok out))) := by
  simp [indexAndAssociateFaces_index, hp, indexFacesByFilename, hi, hn]

/-- The step of the indexing loop for a key that parses and has a face: the
loop goes on from a state that differs by the one `IndexFaces` call (and
possibly a log line), with the first face appended to the label's entry. -/
theorem index_face_step (c : RekognitionClient) (key : String) (rest : List String)
    (faces : List (String × List Face)) (w : World) (label : String) (out : IndexFacesOutput)
    (record : FaceRecord) (more : List FaceRecord)
    (hp : getUserIdFromFilename key = (label, none))
    (hi : c.IndexFaces w.history ⟨w.stackInfo.collectionId, w.stackInfo.bucketName, key, 1⟩
      = .ok out)
    (hn : out.FaceRecords = record :: more) :
    ∃ w' : World,
      w'.history = w.history ++ [Event.IndexFaces
        ⟨w.stackInfo.collectionId, w.stackInfo.bucketName, key, 1⟩ (.ok out)] ∧
      w'.stackInfo = w.stackInfo ∧ w'.existingUserIds = w.existingUserIds ∧
      indexAndAssociateFaces_index c (key :: rest) faces w
        = indexAndAssociateFaces_index c rest
            (mapSet faces label (mapGet faces label ++ [record.Face])) w' := by
  refine ⟨_, ?_, ?_, ?_, index_face c key rest faces w label out record more hp hi hn⟩
  · split <;> simp [World.record, World.logPrintf]
  · split <;> simp [World.record, World.logPrintf]
  · split <;> simp [World.record, World.logPrintf]

/-- The indexing loop issues `IndexFaces` requests only and leaves the package
variables alone. -/
theorem index_loop_events (c : RekognitionClient) (keys : List String)
    (faces : List (String × List Face)) (w : World) :
    ∃ new : List Event,
      (indexAndAssociateFaces_index c keys faces w).2.history = w.history ++ new ∧
      (∀ e ∈ new, e.isIndexFaces = true) ∧
      (indexAndAssociateFaces_index c keys faces w).2.existingUserIds = w.existingUserIds ∧
      (indexAndAssociateFaces_index c keys faces w).2.stackInfo = w.stackInfo := by
  induction keys generalizing faces w with
  | nil => exact ⟨[], by simp [indexAndAssociateFaces_index]⟩
  | cons key rest ih =>
    cases hp : getUserIdFromFilename key with
    | mk label perr =>
      cases perr with
      | some err =>
        rw [index_parse_error c key rest faces w label err hp]
        exact ⟨[], by simp⟩
      | none =>
        cases hi : c.IndexFaces w.history
            ⟨w.stackInfo.collectionId, w.stackInfo.bucketName, key, 1⟩ with
        | error err =>
          rw [index_call_error c key rest faces w label err hp hi]
          exact ⟨[_], rfl, by simp [Event.isIndexFaces], rfl, rfl⟩
        | ok out =>
          cases hn : out.FaceRecords with
          | nil =>
            rw [index_no_face c key rest faces w label out hp hi hn]
            exact ⟨[Event.IndexFaces
                ⟨w.stackInfo.collectionId, w.stackInfo.bucketName, key, 1⟩ (.ok out)],
              by simp [World.record, World.logPrintf], by simp [Event.isIndexFaces], rfl, rfl⟩
          | cons record more =>
            obtain ⟨w', h1, h2, h3, h4⟩ :=
              index_face_step c key rest faces w label out record more hp hi hn
            obtain ⟨new, g1, g2, g3, g4⟩ :=
              ih (mapSet faces label (mapGet faces label ++ [record.Face])) w'
            rw [h4]
            refine ⟨Event.IndexFaces
                ⟨w.stackInfo.collectionId, w.stackInfo.bucketName, key, 1⟩ (.ok out) :: new,
              by rw [g1, h1]; simp, ?_, by rw [g3, h3], by rw [g4, h2]⟩
            intro e he
            rcases List.mem_cons.mp he with he | he
            · subst he; rfl
            · exact g2 e he

theorem getUserIdFromFilename_error (k : String) (label : String) (err : Error)
    (h : getUserIdFromFilename k = (label, some err)) :
    err = "error parsing filename " ++ k := by
  unfold getUserIdFromFilename at h
  simp only [] at h
  split at h
  · injection h with _ h2
    injection h2 with h2
    exact h2.symm
  · injection h with _ h2
    exact absurd h2 (by simp)

/-- The events of the rest of the indexing loop, seen from the state before
the step and from the state after it. -/
theorem index_loop_newEvents (c : RekognitionClient) (rest : List String)
    (faces : List (String × List Face)) (w w' : World) (ev : Event)
    (h : w'.history = w.history ++ [ev]) :
    newEvents w (indexAndAssociateFaces_index c rest faces w').2
      = ev :: newEvents w' (indexAndAssociateFaces_index c rest faces w').2 := by
  obtain ⟨new, g, _⟩ := index_loop_events c rest faces w'
  rw [newEvents_of_append g]
  apply newEvents_of_append
  rw [g, h]
  simp

/-- A key that does not parse stops the indexing loop with the parse error,
when the `IndexFaces` calls made before it each returned a face. -/
theorem index_loop_parse_failure (c : RekognitionClient) (keys : List String)
    (faces : List (String × List Face)) (w : World)
    (hbad : ∃ k ∈ keys, (getUserIdFromFilename k).2 ≠ none)
    (hidx : ∀ e ∈ newEvents w (indexAndAssociateFaces_index c keys faces w).2,
      ∃ r rs, e.indexedFaces = some (r :: rs)) :
    ∃ k ∈ keys, (getUserIdFromFilename k).2 ≠ none ∧
      (indexAndAssociateFaces_index c keys faces w).1
        = Flow.exit (Outcome.returned (some ("error getting user id from filename " ++
            ("error parsing filename " ++ k)))) := by
  induction keys generalizing faces w with
  | nil =>
    obtain ⟨k, hk, _⟩ := hbad
    simp at hk
  | cons key rest ih =>
    cases hp : getUserIdFromFilename key with
    | mk label perr =>
      cases perr with
      | some err =>
        rw [index_parse_error c key rest faces w label err hp]
        refine ⟨key, by simp, by simp [hp], ?_⟩
        rw [getUserIdFromFilename_error key label err hp]
      | none =>
        have hbad' : ∃ k ∈ rest, (getUserIdFromFilename k).2 ≠ none := by
          obtain ⟨k, hk, hne⟩ := hbad
          rcases List.mem_cons.mp hk with hk | hk
          · subst hk
            simp [hp] at hne
          · exact ⟨k, hk, hne⟩
        cases hi : c.IndexFaces w.history
            ⟨w.stackInfo.collectionId, w.stackInfo.bucketName, key, 1⟩ with
        | error err =>
          exfalso
          rw [index_call_error c key rest faces w label err hp hi] at hidx
          have hh : newEvents w (w.record (Event.IndexFaces
              ⟨w.stackInfo.collectionId, w.stackInfo.bucketName, key, 1⟩ (.error err)))
              = [Event.IndexFaces
                ⟨w.stackInfo.collectionId, w.stackInfo.bucketName, key, 1⟩ (.error err)] :=
            newEvents_of_append rfl
          obtain ⟨r, rs, hr⟩ := hidx _ (by rw [hh]; exact List.mem_singleton_self _)
          simp [Event.indexedFaces] at hr
        | ok out =>
          cases hn : out.FaceRecords with
          | nil =>
            exfalso
            rw [index_no_face c key rest faces w label out hp hi hn] at hidx
            have hh : newEvents w ((w.record (Event.IndexFaces
                ⟨w.stackInfo.collectionId, w.stackInfo.bucketName, key, 1⟩
                (.ok out))).logPrintf ("No face found in image " ++ key))
                = [Event.IndexFaces
                  ⟨w.stackInfo.collectionId, w.stackInfo.bucketName, key, 1⟩ (.ok out)] :=
              newEvents_of_append rfl
            obtain ⟨r, rs, hr⟩ := hidx _ (by rw [hh]; exact List.mem_singleton_self _)
            simp [Event.indexedFaces, hn] at hr
          | cons record more =>
            obtain ⟨w', h1, h2, h3, h4⟩ :=
              index_face_step c key rest faces w label out record more hp hi hn
            rw [h4] at hidx ⊢
            rw [index_loop_newEvents c rest _ w w' _ h1] at hidx
            obtain ⟨k, hk, hne, hres⟩ := ih
              (mapSet faces label (mapGet faces label ++ [record.Face])) w' hbad'
              (fun e he => hidx e (List.mem_cons_of_mem _ he))
            exact ⟨k, List.mem_cons_of_mem _ hk, hne, hres⟩

/-! ### The association loop and the whole of `indexAndAssociateFaces` -/

/-- A call of `createUser` issues listings and identity creations only. -/
theorem createUser_events (c : RekognitionClient) (u : String) (w : World) :
    ∃ new : List Event, (createUser c u w).2.history = w.history ++ new ∧
      (createUser c u w).2.stackInfo = w.stackInfo ∧
      ∀ e ∈ new, e.isAssociateFaces = false ∧ e.isIndexFaces = false := by
  have cached : ∀ (w : World) (ids : List String), w.existingUserIds = some ids →
      ∃ new : List Event, (createUser c u w).2.history = w.history ++ new ∧
        (createUser c u w).2.stackInfo = w.stackInfo ∧
        ∀ e ∈ new, e.isAssociateFaces = false ∧ e.isIndexFaces = false := by
    intro w ids hc
    obtain ⟨new, _, h1, _, _, h4, _, h6, h7⟩ := createUser_cached_spec c u w ids hc
    refine ⟨new, h1, h4, ?_⟩
    by_cases hu : u ∈ ids
    · rw [(h6 hu).1]
      simp
    · rw [(h7 hu).1]
      intro e he
      simp only [List.mem_singleton] at he
      subst he
      exact ⟨rfl, rfl⟩
  cases hc : w.existingUserIds with
  | some ids => exact cached w ids hc
  | none =>
    cases hl : c.ListUsers w.history ⟨w.stackInfo.collectionId⟩ with
    | error err =>
      rw [createUser_listUsers_error c u w err hc hl]
      refine ⟨[Event.ListUsers ⟨w.stackInfo.collectionId⟩ (.error err)], rfl, rfl, ?_⟩
      intro e he
      simp only [List.mem_singleton] at he
      subst he
      exact ⟨rfl, rfl⟩
    | ok listing =>
      rw [createUser_fill c u w listing hc hl]
      obtain ⟨new, h1, h2, h3⟩ := cached
        { w.record (Event.ListUsers ⟨w.stackInfo.collectionId⟩ (.ok listing)) with
          existingUserIds := some (listing.Users.map (fun user => user.UserId)) }
        (listing.Users.map (fun user => user.UserId)) rfl
      refine ⟨Event.ListUsers ⟨w.stackInfo.collectionId⟩ (.ok listing) :: new,
        by rw [h1]; simp [World.record], by rw [h2]; rfl, ?_⟩
      intro e he
      rcases List.mem_cons.mp he with he | he
      · subst he
        exact ⟨rfl, rfl⟩
      · exact h3 e he

theorem associate_createUser_error (c : RekognitionClient) (userId : String)
    (faceRecords : List Face) (rest : List (String × List Face)) (w w1 : World) (err : Error)
    (hcu : createUser c userId w = (some err, w1)) :
    indexAndAssociateFaces_associate c ((userId, faceRecords) :: rest) w
      = (some ("error creating user " ++ err), w1) := by
  simp only [indexAndAssociateFaces_associate, hcu]

theorem associate_call_error (c : RekognitionClient) (userId : String)
    (faceRecords : List Face) (rest : List (String × List Face)) (w w1 : World) (err : Error)
    (hcu : createUser c userId w = (none, w1))
    (ha : c.AssociateFaces w1.history
      ⟨w1.stackInfo.collectionId, faceRecords.map (fun face => face.FaceId), userId, 75⟩
      = .error err) :
    indexAndAssociateFaces_associate c ((userId, faceRecords) :: rest) w
      = (some ("error associating faces " ++ err),
          w1.record (Event.AssociateFaces
            ⟨w1.stackInfo.collectionId, faceRecords.map (fun face => face.FaceId), userId, 75⟩
            (.error err))) := by
  simp only [indexAndAssociateFaces_associate, hcu, ha]

theorem associate_call_ok (c : RekognitionClient) (userId : String)
    (faceRecords : List Face) (rest : List (String × List Face)) (w w1 : World) (v : Unit)
    (hcu : createUser c userId w = (none, w1))
    (ha : c.AssociateFaces w1.history
      ⟨w1.stackInfo.collectionId, faceRecords.map (fun face => face.FaceId), userId, 75⟩
      = .ok v) :
    indexAndAssociateFaces_associate c ((userId, faceRecords) :: rest) w
      = indexAndAssociateFaces_associate c rest
          (w1.record (Event.AssociateFaces
            ⟨w1.stackInfo.collectionId, faceRecords.map (fun face => face.FaceId), userId, 75⟩
            (.ok v))) := by
  simp only [indexAndAssociateFaces_associate, hcu, ha]

/-- The association loop: the history only grows, no face is indexed, and
every `AssociateFaces` request carries the label and the face ids of one of
the entries the loop was given. -/
theorem associate_loop_events (c : RekognitionClient) (entries : List (String × List Face))
    (w : World) :
    ∃ new : List Event,
      (indexAndAssociateFaces_associate c entries w).2.history = w.history ++ new ∧
      (∀ e ∈ new, e.isIndexFaces = false) ∧
      (∀ e ∈ new, ∀ inp out, e = Event.AssociateFaces inp out →
        ∃ entry ∈ entries, entry.1 = inp.UserId ∧
          inp.FaceIds = entry.2.map (fun face => face.FaceId)) := by
  induction entries generalizing w with
  | nil => exact ⟨[], by simp [indexAndAssociateFaces_associate]⟩
  | cons entry rest ih =>
    obtain ⟨userId, faceRecords⟩ := entry
    obtain ⟨n1, h1, _, h3⟩ := createUser_events c userId w
    have hn1 : ∀ e ∈ n1, ∀ inp out, e ≠ Event.AssociateFaces inp out := by
      intro e he inp out heq
      have := (h3 e he).1
      rw [heq] at this
      simp [Event.isAssociateFaces] at this
    cases hcu : createUser c userId w with
    | mk cerr w1 =>
      rw [hcu] at h1
      simp only at h1
      cases cerr with
      | some err =>
        rw [associate_createUser_error c userId faceRecords rest w w1 err hcu]
        refine ⟨n1, h1, fun e he => (h3 e he).2, ?_⟩
        intro e he inp out heq
        exact absurd heq (hn1 e he inp out)
      | none =>
        cases ha : c.AssociateFaces w1.history
            ⟨w1.stackInfo.collectionId, faceRecords.map (fun face => face.FaceId), userId, 75⟩ with
        | error err =>
          rw [associate_call_error c userId faceRecords rest w w1 err hcu ha]
          refine ⟨n1 ++ [Event.AssociateFaces
              ⟨w1.stackInfo.collectionId, faceRecords.map (fun face => face.FaceId), userId, 75⟩
              (.error err)],
            by simp [World.record, h1], ?_, ?_⟩
          · intro e he
            rcases List.mem_append.mp he with he | he
            · exact (h3 e he).2
            · simp only [List.mem_singleton] at he
              subst he
              rfl
          · intro e he inp out heq
            rcases List.mem_append.mp he with he | he
            · exact absurd heq (hn1 e he inp out)
            · simp only [List.mem_singleton] at he
              subst he
              injection heq with hinp _
              subst hinp
              exact ⟨(userId, faceRecords), by simp, rfl, rfl⟩
        | ok v =>
          obtain ⟨n2, g1, g2, g3⟩ := ih
            (w1.record (Event.AssociateFaces
              ⟨w1.stackInfo.collectionId, faceRecords.map (fun face => face.FaceId), userId, 75⟩
              (.ok v)))
          refine ⟨n1 ++ Event.AssociateFaces
              ⟨w1.stackInfo.collectionId, faceRecords.map (fun face => face.FaceId), userId, 75⟩
              (.ok v) :: n2, ?_, ?_, ?_⟩
          · rw [associate_call_ok c userId faceRecords rest w w1 v hcu ha, g1]
            simp [World.record, h1]
          · intro e he
            rcases List.mem_append.mp he with he | he
            · exact (h3 e he).2
            · rcases List.mem_cons.mp he with he | he
              · subst he
                rfl
              · exact g2 e he
          · intro e he inp out heq
            rcases List.mem_append.mp he with he | he
            · exact absurd heq (hn1 e he inp out)
            · rcases List.mem_cons.mp he with he | he
              · subst he
                injection heq with hinp _
                subst hinp
                exact ⟨(userId, faceRecords), by simp, rfl, rfl⟩
              · obtain ⟨entry, hmem, h5, h6⟩ := g3 e he inp out heq
                exact ⟨entry, List.mem_cons_of_mem _ hmem, h5, h6⟩

theorem indexAndAssociateFaces_exit (c : RekognitionClient) (s3 : S3Client)
    (rangeOrder : List (String × List Face) → List (String × List Face)) (w : World)
    (listing : ListObjectsV2Output) (o : Outcome)
    (hs3 : s3.ListObjectsV2 w.history ⟨w.stackInfo.bucketName, "reference/"⟩ = .ok listing)
    (hx : (indexAndAssociateFaces_index c (listing.Contents.map (fun object => object.Key)) []
      (w.record (Event.ListObjectsV2 ⟨w.stackInfo.bucketName, "reference/"⟩
        (.ok listing)))).1 = Flow.exit o) :
    indexAndAssociateFaces c s3 rangeOrder w
      = (o, (indexAndAssociateFaces_index c (listing.Contents.map (fun object => object.Key)) []
          (w.record (Event.ListObjectsV2 ⟨w.stackInfo.bucketName, "reference/"⟩
            (.ok listing)))).2) := by
  simp only [indexAndAssociateFaces, getS3Objects, hs3]
  split
  · next o' w' heq =>
    rw [heq] at hx ⊢
    injection hx with hx
    rw [hx]
  · next faces w' heq =>
    rw [heq] at hx
    exact absurd hx (by simp)

theorem indexAndAssociateFaces_next (c : RekognitionClient) (s3 : S3Client)
    (rangeOrder : List (String × List Face) → List (String × List Face)) (w : World)
    (listing : ListObjectsV2Output) (m : List (String × List Face))
    (hs3 : s3.ListObjectsV2 w.history ⟨w.stackInfo.bucketName, "reference/"⟩ = .ok listing)
    (hx : (indexAndAssociateFaces_index c (listing.Contents.map (fun object => object.Key)) []
      (w.record (Event.ListObjectsV2 ⟨w.stackInfo.bucketName, "reference/"⟩
        (.ok listing)))).1 = Flow.next m) :
    indexAndAssociateFaces c s3 rangeOrder w
      = (Outcome.returned (indexAndAssociateFaces_associate c (rangeOrder m)
          (indexAndAssociateFaces_index c (listing.Contents.map (fun object => object.Key)) []
            (w.record (Event.ListObjectsV2 ⟨w.stackInfo.bucketName, "reference/"⟩
              (.ok listing)))).2).1,
        (indexAndAssociateFaces_associate c (rangeOrder m)
          (indexAndAssociateFaces_index c (listing.Contents.map (fun object => object.Key)) []
            (w.record (Event.ListObjectsV2 ⟨w.stackInfo.bucketName, "reference/"⟩
              (.ok listing)))).2).2) := by
  simp only [indexAndAssociateFaces, getS3Objects, hs3]
  split
  · next o' w' heq =>
    rw [heq] at hx
    exact absurd hx (by simp)
  · next faces w' heq =>
    rw [heq] at hx ⊢
    injection hx with hx
    rw [hx]

/-- C8: when some reference key does not parse, and every `IndexFaces` call of
the run (they are the calls for the keys before the first such key) succeeded
with at least one face, `indexAndAssociateFaces` returns the parse error of a
key of the list; it has issued no `CreateUser` and no `AssociateFaces` request,
and the identity cache is as it was. -/
theorem indexAndAssociateFaces_parse_failure (c : RekognitionClient) (s3 : S3Client)
    (rangeOrder : List (String × List Face) → List (String × List Face)) (w : World)
    (listing : ListObjectsV2Output)
    (hs3 : s3.ListObjectsV2 w.history ⟨w.stackInfo.bucketName, "reference/"⟩ = .ok listing)
    (hbad : ∃ k ∈ listing.Contents.map (fun object => object.Key),
      (getUserIdFromFilename k).2 ≠ none)
    (hidx : ∀ e ∈ newEvents w (indexAndAssociateFaces c s3 rangeOrder w).2,
      e.isIndexFaces = true → ∃ r rs, e.indexedFaces = some (r :: rs)) :
    (∃ k ∈ listing.Contents.map (fun object => object.Key),
      (getUserIdFromFilename k).2 ≠ none ∧
      (indexAndAssociateFaces c s3 rangeOrder w).1
        = Outcome.returned (some ("error getting user id from filename " ++
            ("error parsing filename " ++ k)))) ∧
      (∀ e ∈ newEvents w (indexAndAssociateFaces c s3 rangeOrder w).2,
        e.isCreateUser = false ∧ e.isAssociateFaces = false) ∧
      (indexAndAssociateFaces c s3 rangeOrder w).2.existingUserIds = w.existingUserIds := by
  obtain ⟨new, h1, h2, h3, _⟩ := index_loop_events c
    (listing.Contents.map (fun object => object.Key)) []
    (w.record (Event.ListObjectsV2 ⟨w.stackInfo.bucketName, "reference/"⟩ (.ok listing)))
  have hnew0 := newEvents_of_append h1
  have hhist : (indexAndAssociateFaces_index c (listing.Contents.map (fun object => object.Key))
      [] (w.record (Event.ListObjectsV2 ⟨w.stackInfo.bucketName, "reference/"⟩
        (.ok listing)))).2.history
      = w.history ++ (Event.ListObjectsV2 ⟨w.stackInfo.bucketName, "reference/"⟩ (.ok listing)
          :: new) := by
    rw [h1]; simp [World.record]
  -- the indexing calls of the loop are among the calls of the whole run
  have hsub : ∀ e ∈ new, e ∈ newEvents w (indexAndAssociateFaces c s3 rangeOrder w).2 := by
    intro e he
    cases hx : (indexAndAssociateFaces_index c
        (listing.Contents.map (fun object => object.Key)) []
        (w.record (Event.ListObjectsV2 ⟨w.stackInfo.bucketName, "reference/"⟩
          (.ok listing)))).1 with
    | exit o =>
      rw [indexAndAssociateFaces_exit c s3 rangeOrder w listing o hs3 hx]
      simp only
      rw [newEvents_of_append hhist]
      exact List.mem_cons_of_mem _ he
    | next m =>
      rw [indexAndAssociateFaces_next c s3 rangeOrder w listing m hs3 hx]
      simp only
      obtain ⟨n2, g1, _⟩ := associate_loop_events c (rangeOrder m)
        (indexAndAssociateFaces_index c (listing.Contents.map (fun object => object.Key)) []
          (w.record (Event.ListObjectsV2 ⟨w.stackInfo.bucketName, "reference/"⟩
            (.ok listing)))).2
      rw [hhist, List.append_assoc] at g1
      rw [newEvents_of_append g1]
      exact List.mem_cons_of_mem _ (List.mem_append_left _ he)
  obtain ⟨k, hk, hne, hres⟩ := index_loop_parse_failure c
    (listing.Contents.map (fun object => object.Key)) []
    (w.record (Event.ListObjectsV2 ⟨w.stackInfo.bucketName, "reference/"⟩ (.ok listing)))
    hbad (by
      rw [hnew0]
      intro e he
      exact hidx e (hsub e he) (h2 e he))
  rw [indexAndAssociateFaces_exit c s3 rangeOrder w listing _ hs3 hres]
  refine ⟨⟨k, hk, hne, rfl⟩, ?_, ?_⟩
  · simp only
    rw [newEvents_of_append hhist]
    intro e he
    rcases List.mem_cons.mp he with he | he
    · subst he
      exact ⟨rfl, rfl⟩
    · have := h2 e he
      cases e <;> simp_all [Event.isIndexFaces, Event.isCreateUser, Event.isAssociateFaces]
  · simp only
    rw [h3]
    rfl

theorem indexedFaces_cons_of_length (e : Event) (h : 1 ≤ (e.indexedFaces.getD []).length) :
    ∃ r rs, e.indexedFaces = some (r :: rs) := by
  cases he : e.indexedFaces with
  | none => simp [he] at h
  | some l =>
    cases l with
    | nil => simp [he] at h
    | cons r rs => exact ⟨r, rs, rfl⟩

/-- Witness of C8: the second of three keys has an uppercase letter; the first
key is indexed with one face, the run returns the parse error of the second
key and creates and associates nothing. -/
theorem indexAndAssociateFaces_parse_failure_witness :
    (∃ k ∈ ["reference/alice_1.jpg", "reference/Bob_1.jpg", "reference/bob_1.jpg"],
      (getUserIdFromFilename k).2 ≠ none ∧
      (indexAndAssociateFaces referenceService
        (storeOf ["reference/alice_1.jpg", "reference/Bob_1.jpg", "reference/bob_1.jpg"])
        id startWorld).1
        = Outcome.returned (some ("error getting user id from filename " ++
            ("error parsing filename " ++ k)))) ∧
      (∀ e ∈ newEvents startWorld (indexAndAssociateFaces referenceService
          (storeOf ["reference/alice_1.jpg", "reference/Bob_1.jpg", "reference/bob_1.jpg"])
          id startWorld).2,
        e.isCreateUser = false ∧ e.isAssociateFaces = false) ∧
      (indexAndAssociateFaces referenceService
        (storeOf ["reference/alice_1.jpg", "reference/Bob_1.jpg", "reference/bob_1.jpg"])
        id startWorld).2.existingUserIds = startWorld.existingUserIds :=
  indexAndAssociateFaces_parse_failure referenceService
    (storeOf ["reference/alice_1.jpg", "reference/Bob_1.jpg", "reference/bob_1.jpg"])
    id startWorld
    ⟨[⟨"reference/alice_1.jpg"⟩, ⟨"reference/Bob_1.jpg"⟩, ⟨"reference/bob_1.jpg"⟩]⟩
    rfl ⟨"reference/Bob_1.jpg", by decide, by decide⟩
    (fun e he _ => indexedFaces_cons_of_length e
      ((by decide : ∀ e ∈ newEvents startWorld (indexAndAssociateFaces referenceService
          (storeOf ["reference/alice_1.jpg", "reference/Bob_1.jpg", "reference/bob_1.jpg"])
          id startWorld).2,
        e.isIndexFaces = true → 1 ≤ (e.indexedFaces.getD []).length) e he (by assumption)))

/-- C4 fails on the code: with two reference keys that parse and an
`IndexFaces` call that succeeds with zero face records for the first, the run
logs the warning and then panics on `FaceRecords[0]`; the second key, whose
image has a face, is never indexed and nothing is created or associated. -/
theorem indexAndAssociateFaces_zero_faces_panics :
    (indexAndAssociateFaces noFaceForAlice
        (storeOf ["reference/alice_1.jpg", "reference/bob_1.jpg"]) id startWorld).1
      = Outcome.panicked "runtime error: index out of range [0] with length 0" ∧
    newLogs startWorld (indexAndAssociateFaces noFaceForAlice
        (storeOf ["reference/alice_1.jpg", "reference/bob_1.jpg"]) id startWorld).2
      = ["No face found in image reference/alice_1.jpg"] ∧
    (newEvents startWorld (indexAndAssociateFaces noFaceForAlice
        (storeOf ["reference/alice_1.jpg", "reference/bob_1.jpg"]) id startWorld).2).countP
      Event.isIndexFaces = 1 ∧
    (newEvents startWorld (indexAndAssociateFaces noFaceForAlice
        (storeOf ["reference/alice_1.jpg", "reference/bob_1.jpg"]) id startWorld).2).countP
      Event.isCreateUser = 0 ∧
    (newEvents startWorld (indexAndAssociateFaces noFaceForAlice
        (storeOf ["reference/alice_1.jpg", "reference/bob_1.jpg"]) id startWorld).2).countP
      Event.isAssociateFaces = 0 := by
  decide

theorem facesOf_cons (l key : String) (f : Face) (rest : List (String × Face)) :
    facesOf l ((key, f) :: rest)
      = if (getUserIdFromFilename key).1 = l then f :: facesOf l rest else facesOf l rest := by
  unfold facesOf
  by_cases h : (getUserIdFromFilename key).1 = l <;> simp [List.filter_cons, h]

/-- The grouping built by the indexing loop when every key parses and every
`IndexFaces` call returns exactly one face record. -/
theorem index_loop_grouping (c : RekognitionClient) (keys : List String)
    (faces : List (String × List Face)) (w : World)
    (hparse : ∀ k ∈ keys, (getUserIdFromFilename k).2 = none)
    (hone : ∀ e ∈ newEvents w (indexAndAssociateFaces_index c keys faces w).2,
      ∃ r, e.indexedFaces = some [r]) :
    ∃ (fs : List Face) (m : List (String × List Face)),
      fs.length = keys.length ∧
      newEvents w (indexAndAssociateFaces_index c keys faces w).2
        = List.zipWith (fun k f => Event.IndexFaces
            ⟨w.stackInfo.collectionId, w.stackInfo.bucketName, k, 1⟩ (.ok ⟨[⟨f⟩]⟩)) keys fs ∧
      (indexAndAssociateFaces_index c keys faces w).1 = Flow.next m ∧
      (∀ l, mapGet m l = mapGet faces l ++ facesOf l (keys.zip fs)) ∧
      (∀ l, l ∈ m.map Prod.fst ↔
        l ∈ faces.map Prod.fst ∨ ∃ k ∈ keys, (getUserIdFromFilename k).1 = l) ∧
      ((faces.map Prod.fst).Nodup → (m.map Prod.fst).Nodup) := by
  induction keys generalizing faces w with
  | nil =>
    refine ⟨[], faces, rfl, ?_, rfl, ?_, ?_, fun h => h⟩
    · simp [indexAndAssociateFaces_index, newEvents]
    · intro l
      simp [facesOf]
    · intro l
      simp
  | cons key rest ih =>
    cases hp : getUserIdFromFilename key with
    | mk label perr =>
      have hperr : perr = none := by
        have := hparse key (by simp)
        rw [hp] at this
        exact this
      subst hperr
      cases hi : c.IndexFaces w.history
          ⟨w.stackInfo.collectionId, w.stackInfo.bucketName, key, 1⟩ with
      | error err =>
        exfalso
        rw [index_call_error c key rest faces w label err hp hi] at hone
        have hh : newEvents w (w.record (Event.IndexFaces
            ⟨w.stackInfo.collectionId, w.stackInfo.bucketName, key, 1⟩ (.error err)))
            = [Event.IndexFaces
              ⟨w.stackInfo.collectionId, w.stackInfo.bucketName, key, 1⟩ (.error err)] :=
          newEvents_of_append rfl
        obtain ⟨r, hr⟩ := hone _ (by rw [hh]; exact List.mem_singleton_self _)
        simp [Event.indexedFaces] at hr
      | ok out =>
        cases hn : out.FaceRecords with
        | nil =>
          exfalso
          rw [index_no_face c key rest faces w label out hp hi hn] at hone
          have hh : newEvents w ((w.record (Event.IndexFaces
              ⟨w.stackInfo.collectionId, w.stackInfo.bucketName, key, 1⟩
              (.ok out))).logPrintf ("No face found in image " ++ key))
              = [Event.IndexFaces
                ⟨w.stackInfo.collectionId, w.stackInfo.bucketName, key, 1⟩ (.ok out)] :=
            newEvents_of_append rfl
          obtain ⟨r, hr⟩ := hone _ (by rw [hh]; exact List.mem_singleton_self _)
          simp [Event.indexedFaces, hn] at hr
        | cons record more =>
          obtain ⟨w', h1, h2, h3, h4⟩ :=
            index_face_step c key rest faces w label out record more hp hi hn
          rw [h4] at hone ⊢
          rw [index_loop_newEvents c rest _ w w' _ h1] at hone ⊢
          obtain ⟨r, hr⟩ := hone _ (List.mem_cons_self _ _)
          have hout : out = ⟨[⟨record.Face⟩]⟩ := by
            simp only [Event.indexedFaces, hn, Option.some.injEq, List.cons.injEq] at hr
            obtain ⟨_, hmore⟩ := hr
            subst hmore
            cases out
            cases record
            simp_all
          obtain ⟨fs, m, g1, g2, g3, g4, g5, g6⟩ := ih
            (mapSet faces label (mapGet faces label ++ [record.Face])) w'
            (fun k hk => hparse k (List.mem_cons_of_mem _ hk))
            (fun e he => hone e (List.mem_cons_of_mem _ he))
          have hlabel : (getUserIdFromFilename key).1 = label := by rw [hp]
          refine ⟨record.Face :: fs, m, by simp [g1], ?_, g3, ?_, ?_, ?_⟩
          · rw [g2, h2, hout]
            rfl
          · intro l
            rw [g4 l, mapGet_mapSet, List.zip_cons_cons, facesOf_cons, hlabel]
            by_cases hl : label = l <;> simp [hl]
          · intro l
            rw [g5 l, mem_keys_mapSet]
            constructor
            · rintro ((h | h) | ⟨k, hk, hkl⟩)
              · exact Or.inr ⟨key, by simp, by rw [hlabel, h]⟩
              · exact Or.inl h
              · exact Or.inr ⟨k, List.mem_cons_of_mem _ hk, hkl⟩
            · rintro (h | ⟨k, hk, hkl⟩)
              · exact Or.inl (Or.inr h)
              · rcases List.mem_cons.mp hk with hk | hk
                · subst hk
                  exact Or.inl (Or.inl (by rw [← hkl, hlabel]))
                · exact Or.inr ⟨k, hk, hkl⟩
          · intro hnd
            exact g6 (nodup_keys_mapSet faces label _ hnd)

/-- The calls of a whole run of `indexAndAssociateFaces` whose listing
succeeds: the listing, then the calls of the indexing loop, then calls that
index nothing; the `AssociateFaces` requests among the latter carry the label
and the face ids of an entry that the `range` statement visits. -/
theorem indexAndAssociateFaces_events (c : RekognitionClient) (s3 : S3Client)
    (rangeOrder : List (String × List Face) → List (String × List Face)) (w : World)
    (listing : ListObjectsV2Output)
    (hs3 : s3.ListObjectsV2 w.history ⟨w.stackInfo.bucketName, "reference/"⟩ = .ok listing) :
    ∃ later : List Event,
      newEvents w (indexAndAssociateFaces c s3 rangeOrder w).2
        = Event.ListObjectsV2 ⟨w.stackInfo.bucketName, "reference/"⟩ (.ok listing) ::
          (newEvents
            (w.record (Event.ListObjectsV2 ⟨w.stackInfo.bucketName, "reference/"⟩
              (.ok listing)))
            (indexAndAssociateFaces_index c (listing.Contents.map (fun object => object.Key)) []
              (w.record (Event.ListObjectsV2 ⟨w.stackInfo.bucketName, "reference/"⟩
                (.ok listing)))).2 ++ later) ∧
      (∀ e ∈ later, e.isIndexFaces = false) ∧
      (∀ m, (indexAndAssociateFaces_index c (listing.Contents.map (fun object => object.Key)) []
          (w.record (Event.ListObjectsV2 ⟨w.stackInfo.bucketName, "reference/"⟩
            (.ok listing)))).1 = Flow.next m →
        ∀ e ∈ later, ∀ inp out, e = Event.AssociateFaces inp out →
          ∃ entry ∈ rangeOrder m, entry.1 = inp.UserId ∧
            inp.FaceIds = entry.2.map (fun face => face.FaceId)) := by
  obtain ⟨new, h1, _, _, _⟩ := index_loop_events c
    (listing.Contents.map (fun object => object.Key)) []
    (w.record (Event.ListObjectsV2 ⟨w.stackInfo.bucketName, "reference/"⟩ (.ok listing)))
  have hhist : (indexAndAssociateFaces_index c (listing.Contents.map (fun object => object.Key))
      [] (w.record (Event.ListObjectsV2 ⟨w.stackInfo.bucketName, "reference/"⟩
        (.ok listing)))).2.history
      = w.history ++ (Event.ListObjectsV2 ⟨w.stackInfo.bucketName, "reference/"⟩ (.ok listing)
          :: new) := by
    rw [h1]; simp [World.record]
  rw [newEvents_of_append h1]
  cases hx : (indexAndAssociateFaces_index c
      (listing.Contents.map (fun object => object.Key)) []
      (w.record (Event.ListObjectsV2 ⟨w.stackInfo.bucketName, "reference/"⟩
        (.ok listing)))).1 with
  | exit o =>
    rw [indexAndAssociateFaces_exit c s3 rangeOrder w listing o hs3 hx]
    refine ⟨[], ?_, by simp, by simp⟩
    simp only
    rw [newEvents_of_append hhist]
    simp
  | next m =>
    rw [indexAndAssociateFaces_next c s3 rangeOrder w listing m hs3 hx]
    obtain ⟨n2, g1, g2, g3⟩ := associate_loop_events c (rangeOrder m)
      (indexAndAssociateFaces_index c (listing.Contents.map (fun object => object.Key)) []
        (w.record (Event.ListObjectsV2 ⟨w.stackInfo.bucketName, "reference/"⟩
          (.ok listing)))).2
    refine ⟨n2, ?_, g2, ?_⟩
    · simp only
      rw [hhist, List.append_assoc] at g1
      rw [newEvents_of_append g1]
      simp
    · intro m' hm'
      injection hm' with hm'
      subst hm'
      exact g3

/-! ### The requests of a run in which every call succeeds -/

theorem associateRequests_append (a b : List Event) :
    associateRequests (a ++ b) = associateRequests a ++ associateRequests b := by
  induction a with
  | nil => rfl
  | cons e a ih => cases e <;> simp [associateRequests, ih]

theorem associateRequests_eq_nil (l : List Event) (h : ∀ e ∈ l, e.isAssociateFaces = false) :
    associateRequests l = [] := by
  induction l with
  | nil => rfl
  | cons e l ih =>
    have he := h e (List.mem_cons_self _ _)
    have ih' := ih (fun x hx => h x (List.mem_cons_of_mem _ hx))
    cases e <;> simp_all [associateRequests, Event.isAssociateFaces]

/-- A call of `createUser` whose service requests all succeed returns no
error. -/
theorem createUser_succeeds (c : RekognitionClient) (u : String) (w : World)
    (hok : ∀ e ∈ newEvents w (createUser c u w).2, e.succeeded = true) :
    (createUser c u w).1 = none := by
  have cached : ∀ (w : World) (ids : List String), w.existingUserIds = some ids →
      (∀ e ∈ newEvents w (createUser c u w).2, e.succeeded = true) →
      (createUser c u w).1 = none := by
    intro w ids hc hok
    by_cases hu : u ∈ ids
    · rw [createUser_cached_skip c u w ids hc hu]
    · cases hr : c.CreateUser w.history ⟨w.stackInfo.collectionId, u⟩ with
      | error err =>
        exfalso
        rw [createUser_cached_error c u w ids err hc hu hr] at hok
        have hh : newEvents w (w.record (Event.CreateUser ⟨w.stackInfo.collectionId, u⟩
            (.error err)))
            = [Event.CreateUser ⟨w.stackInfo.collectionId, u⟩ (.error err)] :=
          newEvents_of_append rfl
        have := hok _ (by rw [hh]; exact List.mem_singleton_self _)
        simp [Event.succeeded, isOk] at this
      | ok v =>
        cases v
        rw [createUser_cached_ok c u w ids hc hu hr]
  cases hc : w.existingUserIds with
  | some ids => exact cached w ids hc hok
  | none =>
    cases hl : c.ListUsers w.history ⟨w.stackInfo.collectionId⟩ with
    | error err =>
      exfalso
      rw [createUser_listUsers_error c u w err hc hl] at hok
      have hh : newEvents w (w.record (Event.ListUsers ⟨w.stackInfo.collectionId⟩
          (.error err)))
          = [Event.ListUsers ⟨w.stackInfo.collectionId⟩ (.error err)] :=
        newEvents_of_append rfl
      have := hok _ (by rw [hh]; exact List.mem_singleton_self _)
      simp [Event.succeeded, isOk] at this
    | ok listing =>
      rw [createUser_fill c u w listing hc hl] at hok ⊢
      refine cached _ (listing.Users.map (fun user => user.UserId)) rfl ?_
      intro e he
      refine hok e ?_
      have hstep : ({ w.record (Event.ListUsers ⟨w.stackInfo.collectionId⟩ (.ok listing)) with
          existingUserIds := some (listing.Users.map (fun user => user.UserId)) } : World).history
          = w.history ++ [Event.ListUsers ⟨w.stackInfo.collectionId⟩ (.ok listing)] := rfl
      rw [newEvents_trans hstep (createUser_history c u _)]
      exact List.mem_append_right _ he

theorem associate_loop_history (c : RekognitionClient) (entries : List (String × List Face))
    (w : World) :
    ∃ b, (indexAndAssociateFaces_associate c entries w).2.history = w.history ++ b := by
  obtain ⟨new, h, _⟩ := associate_loop_events c entries w
  exact ⟨new, h⟩

/-- When every call of the association loop succeeds, the loop returns no
error and has issued one `AssociateFaces` request per entry, in the order of
the entries, with the label of the entry and the ids of its faces. -/
theorem associate_loop_requests (c : RekognitionClient) (entries : List (String × List Face))
    (w : World)
    (hok : ∀ e ∈ newEvents w (indexAndAssociateFaces_associate c entries w).2,
      e.succeeded = true) :
    (indexAndAssociateFaces_associate c entries w).1 = none ∧
      associateRequests (newEvents w (indexAndAssociateFaces_associate c entries w).2)
        = entries.map (fun entry =>
            ⟨w.stackInfo.collectionId, entry.2.map (fun face => face.FaceId), entry.1, 75⟩) := by
  induction entries generalizing w with
  | nil => simp [indexAndAssociateFaces_associate, newEvents_self, associateRequests]
  | cons entry rest ih =>
    obtain ⟨userId, faceRecords⟩ := entry
    obtain ⟨n1, h1, hsi, h3⟩ := createUser_events c userId w
    have hn1 : associateRequests n1 = [] :=
      associateRequests_eq_nil n1 (fun e he => (h3 e he).1)
    cases hcu : createUser c userId w with
    | mk cerr w1 =>
      rw [hcu] at h1 hsi
      simp only at h1 hsi
      cases cerr with
      | some err =>
        exfalso
        rw [associate_createUser_error c userId faceRecords rest w w1 err hcu] at hok
        have := createUser_succeeds c userId w (by rw [hcu]; exact hok)
        rw [hcu] at this
        simp at this
      | none =>
        cases ha : c.AssociateFaces w1.history
            ⟨w1.stackInfo.collectionId, faceRecords.map (fun face => face.FaceId), userId, 75⟩ with
        | error err =>
          exfalso
          rw [associate_call_error c userId faceRecords rest w w1 err hcu ha] at hok
          have hh : newEvents w (w1.record (Event.AssociateFaces
              ⟨w1.stackInfo.collectionId, faceRecords.map (fun face => face.FaceId), userId, 75⟩
              (.error err)))
              = n1 ++ [Event.AssociateFaces
                ⟨w1.stackInfo.collectionId, faceRecords.map (fun face => face.FaceId), userId, 75⟩
                (.error err)] :=
            newEvents_of_append (by simp [World.record, h1])
          have := hok (Event.AssociateFaces
            ⟨w1.stackInfo.collectionId, faceRecords.map (fun face => face.FaceId), userId, 75⟩
            (.error err)) (by rw [hh]; simp)
          simp [Event.succeeded, isOk] at this
        | ok v =>
          rw [associate_call_ok c userId faceRecords rest w w1 v hcu ha] at hok ⊢
          have hstep : (w1.record (Event.AssociateFaces
              ⟨w1.stackInfo.collectionId, faceRecords.map (fun face => face.FaceId), userId, 75⟩
              (.ok v))).history
              = w.history ++ (n1 ++ [Event.AssociateFaces
                ⟨w1.stackInfo.collectionId, faceRecords.map (fun face => face.FaceId), userId, 75⟩
                (.ok v)]) := by
            simp [World.record, h1]
          rw [newEvents_trans hstep (associate_loop_history c rest _)] at hok ⊢
          obtain ⟨g1, g2⟩ := ih (w1.record (Event.AssociateFaces
              ⟨w1.stackInfo.collectionId, faceRecords.map (fun face => face.FaceId), userId, 75⟩
              (.ok v))) (fun e he => hok e (List.mem_append_right _ he))
          refine ⟨g1, ?_⟩
          rw [associateRequests_append, associateRequests_append, hn1, g2]
          simp [associateRequests, World.record, hsi]

/-- A run of `indexAndAssociateFaces` in which the listing and every later call
succeed, and the indexing loop builds the map `m`: the run returns no error
and its `AssociateFaces` requests are, in the order `range` visits the map, one
per entry with the label of the entry and the ids of its faces. -/
theorem indexAndAssociateFaces_requests (c : RekognitionClient) (s3 : S3Client)
    (rangeOrder : List (String × List Face) → List (String × List Face)) (w : World)
    (listing : ListObjectsV2Output) (m : List (String × List Face))
    (hs3 : s3.ListObjectsV2 w.history ⟨w.stackInfo.bucketName, "reference/"⟩ = .ok listing)
    (hx : (indexAndAssociateFaces_index c (listing.Contents.map (fun object => object.Key)) []
      (w.record (Event.ListObjectsV2 ⟨w.stackInfo.bucketName, "reference/"⟩
        (.ok listing)))).1 = Flow.next m)
    (hok : ∀ e ∈ newEvents w (indexAndAssociateFaces c s3 rangeOrder w).2,
      e.succeeded = true) :
    (indexAndAssociateFaces c s3 rangeOrder w).1 = Outcome.returned none ∧
      associateRequests (newEvents w (indexAndAssociateFaces c s3 rangeOrder w).2)
        = (rangeOrder m).map (fun entry =>
            ⟨w.stackInfo.collectionId, entry.2.map (fun face => face.FaceId), entry.1, 75⟩) := by
  obtain ⟨new, h1, h2, _, h4⟩ := index_loop_events c
    (listing.Contents.map (fun object => object.Key)) []
    (w.record (Event.ListObjectsV2 ⟨w.stackInfo.bucketName, "reference/"⟩ (.ok listing)))
  have hhist : (indexAndAssociateFaces_index c (listing.Contents.map (fun object => object.Key))
      [] (w.record (Event.ListObjectsV2 ⟨w.stackInfo.bucketName, "reference/"⟩
        (.ok listing)))).2.history
      = w.history ++ (Event.ListObjectsV2 ⟨w.stackInfo.bucketName, "reference/"⟩ (.ok listing)
          :: new) := by
    rw [h1]; simp [World.record]
  rw [indexAndAssociateFaces_next c s3 rangeOrder w listing m hs3 hx] at hok ⊢
  simp only at hok ⊢
  rw [newEvents_trans hhist (associate_loop_history c (rangeOrder m) _)] at hok ⊢
  obtain ⟨g1, g2⟩ := associate_loop_requests c (rangeOrder m) _
    (fun e he => hok e (List.mem_append_right _ he))
  refine ⟨by rw [g1], ?_⟩
  have hfirst : associateRequests
      (Event.ListObjectsV2 ⟨w.stackInfo.bucketName, "reference/"⟩ (.ok listing) :: new) = [] := by
    apply associateRequests_eq_nil
    intro e he
    rcases List.mem_cons.mp he with he | he
    · subst he; rfl
    · have := h2 e he
      cases e <;> simp_all [Event.isIndexFaces, Event.isAssociateFaces]
  rw [associateRequests_append, hfirst, g2, h4]
  rfl

theorem indexedFaces_single_of_length (e : Event) (h : (e.indexedFaces.getD []).length = 1) :
    ∃ r, e.indexedFaces = some [r] := by
  cases he : e.indexedFaces with
  | none => simp [he] at h
  | some l =>
    cases l with
    | nil => simp [he] at h
    | cons r rs =>
      cases rs with
      | nil => exact ⟨r, rfl⟩
      | cons r2 rs => simp [he] at h

theorem filter_label_eq (l : List (String × List Face)) (hnd : (l.map Prod.fst).Nodup)
    (k : String) (v : List Face) (hm : (k, v) ∈ l) :
    l.filter (fun e => e.1 = k) = [(k, v)] := by
  induction l with
  | nil => simp at hm
  | cons e l ih =>
    obtain ⟨k', v'⟩ := e
    simp only [List.map_cons, List.nodup_cons] at hnd
    rcases List.mem_cons.mp hm with hm | hm
    · injection hm with e1 e2
      subst e1 e2
      have hnone : l.filter (fun e => e.1 = k) = [] := by
        rw [List.filter_eq_nil_iff]
        intro x hx hxk
        have hxk' : x.1 = k := by simpa using hxk
        exact hnd.1 (List.mem_map.mpr ⟨x, hx, hxk'⟩)
      simp [List.filter_cons, hnone]
    · have hne : ¬ k' = k := by
        intro hh
        subst hh
        exact hnd.1 (List.mem_map.mpr ⟨(k', v), hm, rfl⟩)
      simp [List.filter_cons, hne, ih hnd.2 hm]

/-- C6: when the listing succeeds, every reference key parses and every
`IndexFaces` call of the run returns exactly one face record, there is one
face per key (`fs`, the face returned by the indexing call of that key, the
calls being made key by key in listing order) such that the map built by the
first loop reads, at every identity label, as the faces of the keys carrying
that label in listing order; its keys are exactly the labels of the keys; and
every `AssociateFaces` request of the run sends, for its label, the face ids of
that list.  When moreover every call of the run succeeds, the run returns no
error and its `AssociateFaces` requests are one per entry of the map, in the
order `range` visits it, so that for every label of a key exactly one request
is issued, carrying the face ids of that label's list.  The order in which
`range` visits the map is any permutation. -/
theorem indexAndAssociateFaces_grouping (c : RekognitionClient) (s3 : S3Client)
    (rangeOrder : List (String × List Face) → List (String × List Face)) (w : World)
    (listing : ListObjectsV2Output)
    (hs3 : s3.ListObjectsV2 w.history ⟨w.stackInfo.bucketName, "reference/"⟩ = .ok listing)
    (hperm : ∀ m, (rangeOrder m).Perm m)
    (hparse : ∀ k ∈ listing.Contents.map (fun object => object.Key),
      (getUserIdFromFilename k).2 = none)
    (hone : ∀ e ∈ newEvents w (indexAndAssociateFaces c s3 rangeOrder w).2,
      e.isIndexFaces = true → ∃ r, e.indexedFaces = some [r]) :
    ∃ (fs : List Face) (grouping : List (String × List Face)),
      fs.length = (listing.Contents.map (fun object => object.Key)).length ∧
      (newEvents w (indexAndAssociateFaces c s3 rangeOrder w).2).filter Event.isIndexFaces
        = List.zipWith (fun k f => Event.IndexFaces
            ⟨w.stackInfo.collectionId, w.stackInfo.bucketName, k, 1⟩ (.ok ⟨[⟨f⟩]⟩))
            (listing.Contents.map (fun object => object.Key)) fs ∧
      (indexAndAssociateFaces_index c (listing.Contents.map (fun object => object.Key)) []
        (w.record (Event.ListObjectsV2 ⟨w.stackInfo.bucketName, "reference/"⟩
          (.ok listing)))).1 = Flow.next grouping ∧
      (∀ label, mapGet grouping label
        = facesOf label ((listing.Contents.map (fun object => object.Key)).zip fs)) ∧
      (∀ label, label ∈ grouping.map Prod.fst ↔
        ∃ k ∈ listing.Contents.map (fun object => object.Key),
          (getUserIdFromFilename k).1 = label) ∧
      (∀ e ∈ newEvents w (indexAndAssociateFaces c s3 rangeOrder w).2,
        ∀ inp out, e = Event.AssociateFaces inp out →
          inp.FaceIds = (facesOf inp.UserId
            ((listing.Contents.map (fun object => object.Key)).zip fs)).map
              (fun face => face.FaceId)) ∧
      ((∀ e ∈ newEvents w (indexAndAssociateFaces c s3 rangeOrder w).2, e.succeeded = true) →
        (indexAndAssociateFaces c s3 rangeOrder w).1 = Outcome.returned none ∧
        associateRequests (newEvents w (indexAndAssociateFaces c s3 rangeOrder w).2)
          = (rangeOrder grouping).map (fun entry =>
              ⟨w.stackInfo.collectionId,
                (facesOf entry.1
                  ((listing.Contents.map (fun object => object.Key)).zip fs)).map
                    (fun face => face.FaceId),
                entry.1, 75⟩) ∧
        ∀ label, (∃ k ∈ listing.Contents.map (fun object => object.Key),
            (getUserIdFromFilename k).1 = label) →
          (associateRequests
              (newEvents w (indexAndAssociateFaces c s3 rangeOrder w).2)).filter
              (fun request => request.UserId = label)
            = [⟨w.stackInfo.collectionId,
                (facesOf label
                  ((listing.Contents.map (fun object => object.Key)).zip fs)).map
                    (fun face => face.FaceId),
                label, 75⟩]) := by
  obtain ⟨later, hev, hlater, hassoc⟩ := indexAndAssociateFaces_events c s3 rangeOrder w listing hs3
  obtain ⟨new, h1, h2, _, h4⟩ := index_loop_events c
    (listing.Contents.map (fun object => object.Key)) []
    (w.record (Event.ListObjectsV2 ⟨w.stackInfo.bucketName, "reference/"⟩ (.ok listing)))
  have hnew := newEvents_of_append h1
  rw [hev] at hone
  obtain ⟨fs, m, g1, g2, g3, g4, g5, g6⟩ := index_loop_grouping c
    (listing.Contents.map (fun object => object.Key)) []
    (w.record (Event.ListObjectsV2 ⟨w.stackInfo.bucketName, "reference/"⟩ (.ok listing)))
    hparse (by
      intro e he
      refine hone e (List.mem_cons_of_mem _ (List.mem_append_left _ he)) ?_
      rw [hnew] at he
      exact h2 e he)
  have hnd : (m.map Prod.fst).Nodup := g6 (by simp)
  have hget : ∀ label, mapGet m label
      = facesOf label ((listing.Contents.map (fun object => object.Key)).zip fs) := by
    intro label
    rw [g4 label]
    simp [mapGet]
  have hkeys : ∀ label, label ∈ m.map Prod.fst ↔
      ∃ k ∈ listing.Contents.map (fun object => object.Key),
        (getUserIdFromFilename k).1 = label := by
    intro label
    rw [g5 label]
    simp
  refine ⟨fs, m, g1, ?_, g3, hget, hkeys, ?_, ?_⟩
  · have g2' : newEvents
        (w.record (Event.ListObjectsV2 ⟨w.stackInfo.bucketName, "reference/"⟩ (.ok listing)))
        (indexAndAssociateFaces_index c (listing.Contents.map (fun object => object.Key)) []
          (w.record (Event.ListObjectsV2 ⟨w.stackInfo.bucketName, "reference/"⟩
            (.ok listing)))).2
        = List.zipWith (fun k f => Event.IndexFaces
            ⟨w.stackInfo.collectionId, w.stackInfo.bucketName, k, 1⟩ (.ok ⟨[⟨f⟩]⟩))
            (listing.Contents.map (fun object => object.Key)) fs := g2
    rw [hev, ← g2', hnew]
    have e1 : new.filter Event.isIndexFaces = new := List.filter_eq_self.mpr h2
    have e2 : later.filter Event.isIndexFaces = [] := by
      rw [List.filter_eq_nil_iff]
      intro e he
      simp [hlater e he]
    simp [List.filter_cons, Event.isIndexFaces, List.filter_append, e1, e2]
  · intro e he inp out heq
    rw [hev] at he
    rcases List.mem_cons.mp he with he | he
    · rw [heq] at he
      exact absurd he (by simp)
    · rcases List.mem_append.mp he with he | he
      · rw [hnew] at he
        have := h2 e he
        rw [heq] at this
        simp [Event.isIndexFaces] at this
      · obtain ⟨entry, hmem, hlabel, hids⟩ := hassoc m g3 e he inp out heq
        have hmem' : entry ∈ m := (hperm m).mem_iff.mp hmem
        have := mapGet_of_mem m hnd entry.1 entry.2 hmem'
        rw [hids, ← this, hlabel, hget]
  · intro hok
    obtain ⟨r1, r2⟩ := indexAndAssociateFaces_requests c s3 rangeOrder w listing m hs3 g3 hok
    have hentry : ∀ entry ∈ rangeOrder m, entry.2
        = facesOf entry.1 ((listing.Contents.map (fun object => object.Key)).zip fs) := by
      intro entry hmem
      have hmem' : entry ∈ m := (hperm m).mem_iff.mp hmem
      rw [← hget, mapGet_of_mem m hnd entry.1 entry.2 hmem']
    have r3 : associateRequests (newEvents w (indexAndAssociateFaces c s3 rangeOrder w).2)
        = (rangeOrder m).map (fun entry =>
            (⟨w.stackInfo.collectionId,
              (facesOf entry.1
                ((listing.Contents.map (fun object => object.Key)).zip fs)).map
                  (fun face => face.FaceId),
              entry.1, 75⟩ : AssociateFacesInput)) := by
      rw [r2]
      apply List.map_congr_left
      intro entry hmem
      rw [← hentry entry hmem]
    refine ⟨r1, r3, ?_⟩
    intro label hlabel
    have hin : label ∈ m.map Prod.fst := (hkeys label).mpr hlabel
    obtain ⟨entry, hentrym, hfst⟩ := List.mem_map.mp hin
    obtain ⟨l0, v0⟩ := entry
    simp only at hfst
    subst hfst
    have hndr : ((rangeOrder m).map Prod.fst).Nodup :=
      ((hperm m).map Prod.fst).nodup_iff.mpr hnd
    have hmemr : (l0, v0) ∈ rangeOrder m := (hperm m).mem_iff.mpr hentrym
    have hfil := filter_label_eq (rangeOrder m) hndr l0 v0 hmemr
    rw [r3, List.filter_map]
    have hcomp : ((fun request : AssociateFacesInput => decide (request.UserId = l0)) ∘
        (fun entry : String × List Face =>
          (⟨w.stackInfo.collectionId,
            (facesOf entry.1
              ((listing.Contents.map (fun object => object.Key)).zip fs)).map
                (fun face => face.FaceId),
            entry.1, 75⟩ : AssociateFacesInput)))
        = (fun e : String × List Face => decide (e.1 = l0)) := rfl
    rw [hcomp, hfil]
    rfl

/-- Witness of C6: two images of alice and one of bob, one face each; the
labels are visited in reverse order of insertion and every call succeeds.  The
map is alice: face1, face2 and bob: face3; the run returns no error and issues
the request for bob with face3, then the request for alice with face1 and
face2. -/
theorem indexAndAssociateFaces_grouping_witness :
    ((indexAndAssociateFaces_index referenceService
        ["reference/alice_1.jpg", "reference/alice_2.jpg", "reference/bob_1.jpg"] []
        (startWorld.record (Event.ListObjectsV2 ⟨startWorld.stackInfo.bucketName, "reference/"⟩
          (.ok ⟨[⟨"reference/alice_1.jpg"⟩, ⟨"reference/alice_2.jpg"⟩,
            ⟨"reference/bob_1.jpg"⟩]⟩)))).1
      = Flow.next [("alice", [⟨"face1"⟩, ⟨"face2"⟩]), ("bob", [⟨"face3"⟩])]) ∧
    (∀ e ∈ newEvents startWorld (indexAndAssociateFaces referenceService
        (storeOf ["reference/alice_1.jpg", "reference/alice_2.jpg", "reference/bob_1.jpg"])
        List.reverse startWorld).2, e.succeeded = true) ∧
    associateRequests (newEvents startWorld (indexAndAssociateFaces referenceService
        (storeOf ["reference/alice_1.jpg", "reference/alice_2.jpg", "reference/bob_1.jpg"])
        List.reverse startWorld).2)
      = [⟨"faces", ["face3"], "bob", 75⟩, ⟨"faces", ["face1", "face2"], "alice", 75⟩] ∧
    ∃ (fs : List Face) (grouping : List (String × List Face)),
      fs.length = (["reference/alice_1.jpg", "reference/alice_2.jpg",
        "reference/bob_1.jpg"]).length ∧
      (newEvents startWorld (indexAndAssociateFaces referenceService
          (storeOf ["reference/alice_1.jpg", "reference/alice_2.jpg", "reference/bob_1.jpg"])
          List.reverse startWorld).2).filter Event.isIndexFaces
        = List.zipWith (fun k f => Event.IndexFaces
            ⟨startWorld.stackInfo.collectionId, startWorld.stackInfo.bucketName, k, 1⟩
            (.ok ⟨[⟨f⟩]⟩))
            ["reference/alice_1.jpg", "reference/alice_2.jpg", "reference/bob_1.jpg"] fs ∧
      (indexAndAssociateFaces_index referenceService
        ["reference/alice_1.jpg", "reference/alice_2.jpg", "reference/bob_1.jpg"] []
        (startWorld.record (Event.ListObjectsV2 ⟨startWorld.stackInfo.bucketName, "reference/"⟩
          (.ok ⟨[⟨"reference/alice_1.jpg"⟩, ⟨"reference/alice_2.jpg"⟩,
            ⟨"reference/bob_1.jpg"⟩]⟩)))).1 = Flow.next grouping ∧
      (∀ label, mapGet grouping label
        = facesOf label ((["reference/alice_1.jpg", "reference/alice_2.jpg",
            "reference/bob_1.jpg"]).zip fs)) ∧
      (∀ label, label ∈ grouping.map Prod.fst ↔
        ∃ k ∈ ["reference/alice_1.jpg", "reference/alice_2.jpg", "reference/bob_1.jpg"],
          (getUserIdFromFilename k).1 = label) ∧
      (∀ e ∈ newEvents startWorld (indexAndAssociateFaces referenceService
          (storeOf ["reference/alice_1.jpg", "reference/alice_2.jpg", "reference/bob_1.jpg"])
          List.reverse startWorld).2,
        ∀ inp out, e = Event.AssociateFaces inp out →
          inp.FaceIds = (facesOf inp.UserId
            ((["reference/alice_1.jpg", "reference/alice_2.jpg",
              "reference/bob_1.jpg"]).zip fs)).map (fun face => face.FaceId)) ∧
      ((∀ e ∈ newEvents startWorld (indexAndAssociateFaces referenceService
          (storeOf ["reference/alice_1.jpg", "reference/alice_2.jpg", "reference/bob_1.jpg"])
          List.reverse startWorld).2, e.succeeded = true) →
        (indexAndAssociateFaces referenceService
          (storeOf ["reference/alice_1.jpg", "reference/alice_2.jpg", "reference/bob_1.jpg"])
          List.reverse startWorld).1 = Outcome.returned none ∧
        associateRequests (newEvents startWorld (indexAndAssociateFaces referenceService
            (storeOf ["reference/alice_1.jpg", "reference/alice_2.jpg", "reference/bob_1.jpg"])
            List.reverse startWorld).2)
          = (List.reverse grouping).map (fun entry =>
              ⟨startWorld.stackInfo.collectionId,
                (facesOf entry.1
                  ((["reference/alice_1.jpg", "reference/alice_2.jpg",
                    "reference/bob_1.jpg"]).zip fs)).map (fun face => face.FaceId),
                entry.1, 75⟩) ∧
        ∀ label, (∃ k ∈ ["reference/alice_1.jpg", "reference/alice_2.jpg",
            "reference/bob_1.jpg"], (getUserIdFromFilename k).1 = label) →
          (associateRequests (newEvents startWorld (indexAndAssociateFaces referenceService
              (storeOf ["reference/alice_1.jpg", "reference/alice_2.jpg",
                "reference/bob_1.jpg"])
              List.reverse startWorld).2)).filter (fun request => request.UserId = label)
            = [⟨startWorld.stackInfo.collectionId,
                (facesOf label
                  ((["reference/alice_1.jpg", "reference/alice_2.jpg",
                    "reference/bob_1.jpg"]).zip fs)).map (fun face => face.FaceId),
                label, 75⟩]) :=
  ⟨by decide, by decide, by decide,
    indexAndAssociateFaces_grouping referenceService
      (storeOf ["reference/alice_1.jpg", "reference/alice_2.jpg", "reference/bob_1.jpg"])
      List.reverse startWorld
      ⟨[⟨"reference/alice_1.jpg"⟩, ⟨"reference/alice_2.jpg"⟩, ⟨"reference/bob_1.jpg"⟩]⟩
      rfl (fun m => List.reverse_perm m) (by decide)
      (fun e he _ => indexedFaces_single_of_length e
        ((by decide : ∀ e ∈ newEvents startWorld (indexAndAssociateFaces referenceService
            (storeOf ["reference/alice_1.jpg", "reference/alice_2.jpg", "reference/bob_1.jpg"])
            List.reverse startWorld).2,
          e.isIndexFaces = true → (e.indexedFaces.getD []).length = 1) e he (by assumption)))⟩

end Rekog
